import Mathlib

/-!
Shallow embedding of the game server in `src/server.py`.

Modelling conventions, kept uniform across the file:

* Python floats are modelled as rationals (`ℚ`).  Every comparison of the
  form `math.sqrt(d2) < r` in the source is translated to `d2 < r^2`,
  which is equivalent for nonnegative reals because the square root is
  strictly monotone.
* Python dicts that preserve insertion order (`self.clients`,
  `self.players`, `self.player_damage_cooldowns`,
  `self.chaser_respawn_times`, `self.player_score_times`) are modelled as
  association lists together with the helpers `alGet`, `alSet`,
  `alModify`, `alErase`, which mirror `d[k]`, `d[k] = v`, in-place field
  mutation, and `del d[k]` respectively.
* Calls to the random number generator (`random.randint`,
  `random.choice`, `random.random`) and the irrational unit-vector
  normalisation `dx / math.sqrt(dx**2 + dy**2)` cannot be represented by
  closed rational terms, so their results are supplied by an `Env`
  oracle.  The control flow that decides whether those results are used
  is translated from the source unchanged.
* Wall-clock reads (`time.time()`) within one pass are modelled by a
  single `now` value supplied by the same `Env`.
* Fallible Python code (statements that can raise) is modelled with
  `Except`; the generic `except` handler of `handle_client`, which
  breaks the read loop and disconnects the client, is modelled in
  `handleLine`.
-/

/-- Mirrors the Python enum `GameState` (src/server.py lines 25-29). -/
inductive GameState where
  | MENU
  | PLAYING
  | PAUSED
  | GAME_OVER
deriving DecidableEq, Repr

/-- Mirrors the Python enum `Difficulty` (src/server.py lines 31-34). -/
inductive Difficulty where
  | EASY
  | MEDIUM
  | HARD
deriving DecidableEq, Repr

/-- Player record created in `accept_connections` (src/server.py lines
216-228).  The Python object is a dict from strings to JSON values; here
the documented fields are given their intended types.  `player_update`
merges are modelled field-wise on this typed record (see `setField`). -/
structure Player where
  id : ℚ
  x : ℚ
  y : ℚ
  angle : ℚ
  health : ℚ
  max_health : ℚ
  score : ℚ
  character : ℚ
  sword_attacking : Bool
  speed_boost_active : Bool
  immunity_boost_active : Bool
deriving DecidableEq, Repr

/-- Chaser record (src/server.py lines 416-423). -/
structure Chaser where
  id : ℕ
  x : ℚ
  y : ℚ
  angle : ℚ
  speed : ℚ
  health : ℚ
deriving DecidableEq, Repr

/-- Bullet record (src/server.py lines 591-596). -/
structure Bullet where
  x : ℚ
  y : ℚ
  dx : ℚ
  dy : ℚ
deriving DecidableEq, Repr

/-- Powerup type selector (src/server.py line 697). -/
inductive PowerupType where
  | health
  | speed
  | immunity
deriving DecidableEq, Repr

/-- Powerup record (src/server.py lines 696-700). -/
structure Powerup where
  ptype : PowerupType
  x : ℚ
  y : ℚ
deriving DecidableEq, Repr

/-- Per-client bookkeeping stored in `self.clients`
(src/server.py lines 208-213); the socket handle is not modelled. -/
structure ClientInfo where
  connected : Bool
  last_heartbeat : ℚ
deriving DecidableEq, Repr

/-- Out-of-band broadcast messages the server pushes (type field of the
message built in the various `broadcast_*` helpers and in
`accept_connections`). -/
inductive Event where
  | connected_msg (cid : ℕ)
  | rejected
  | player_joined (cid : ℕ)
  | player_left (cid : ℕ)
  | player_respawned (cid : ℕ)
  | game_started
  | difficulty_changed
  | sword_attack_evt (cid : ℕ)
  | server_info_msg
deriving DecidableEq, Repr

/-- JSON values as produced by `json.loads` on a message line.  Objects
are ordered field lists; `json.loads` collapses duplicate keys keeping
the last one, which `jget` reproduces. -/
inductive Json where
  | null
  | bool (b : Bool)
  | num (q : ℚ)
  | str (s : String)
  | arr (elems : List Json)
  | obj (fields : List (String × Json))

/-- One raw line received by `handle_client`: either it fails
`json.loads` or it decodes to a JSON value. -/
inductive RawLine where
  | invalid (line : String)
  | valid (msg : Json)

/-- The complete mutable server state set up in `GameServer.__init__`
(src/server.py lines 74-103).  `last_bullet_time` and
`player_score_times` are created lazily by `hasattr` checks in the
source; the lazily-absent state is `none` and the empty list
respectively (observationally equivalent, see `spawn_bullets` and
`players_score_tick`). -/
structure ServerState where
  clients : List (ℕ × ClientInfo)
  players : List (ℕ × Player)
  game_state : GameState
  chasers : List Chaser
  bullets : List Bullet
  powerups : List Powerup
  game_time : ℚ
  global_score : ℚ
  last_global_score_time : ℚ
  difficulty : Difficulty
  max_players : ℕ
  player_damage_cooldowns : List (ℕ × ℚ)
  chaser_respawn_times : List (ℕ × ℚ)
  player_score_times : List (ℕ × ℚ)
  last_bullet_time : Option ℚ
  auto_started : Bool
deriving DecidableEq, Repr

/-- Oracle for the effects the simulation consumes from outside the
rational fragment: the tick delta and wall clock, the RNG draws, and the
unit vectors `(dx/d, dy/d)` plus the degree angle `atan2` that the
source computes with floating point square roots. -/
structure Env where
  dt : ℚ
  now : ℚ
  chaserDir : ℕ → ℚ × ℚ × ℚ
  bulletDir : ℕ → ℚ × ℚ
  powerupRoll : Option Powerup
  respawnPos : ℕ → ℚ × ℚ
  spawnPos : ℕ → ℚ × ℚ

/-! ### Association list helpers (Python dict operations) -/

/-- Dict read `d.get(k)`. -/
def alGet (k : ℕ) : List (ℕ × α) → Option α
  | [] => none
  | kv :: rest => if kv.1 = k then some kv.2 else alGet k rest

/-- Dict write `d[k] = v`: replaces in place when the key exists,
otherwise appends (Python dicts preserve insertion order). -/
def alSet (k : ℕ) (v : α) : List (ℕ × α) → List (ℕ × α)
  | [] => [(k, v)]
  | kv :: rest => if kv.1 = k then (k, v) :: rest else kv :: alSet k v rest

/-- In-place mutation of the value stored at `k`; no effect when the key
is absent. -/
def alModify (k : ℕ) (f : α → α) : List (ℕ × α) → List (ℕ × α)
  | [] => []
  | kv :: rest => if kv.1 = k then (kv.1, f kv.2) :: rest else kv :: alModify k f rest

/-- Dict delete `del d[k]`. -/
def alErase (k : ℕ) : List (ℕ × α) → List (ℕ × α)
  | [] => []
  | kv :: rest => if kv.1 = k then rest else kv :: alErase k rest

/-! ### Constants from `__init__` -/

def damage_cooldown_duration : ℚ := 1
def chaser_respawn_delay : ℚ := 2
def global_score_interval : ℚ := 10
def timeout_threshold : ℚ := 60

/-- Squared Euclidean distance.  Wherever the source compares
`math.sqrt(distSq) < r` this file compares `distSq < r^2`. -/
def distSq (x1 y1 x2 y2 : ℚ) : ℚ := (x1 - x2) * (x1 - x2) + (y1 - y2) * (y1 - y2)

/-! ### Difficulty tables (src/server.py lines 426-442, 601-617) -/

def get_chaser_count : Difficulty → ℕ
  | .EASY => 1
  | .MEDIUM => 2
  | .HARD => 3

def get_chaser_speed : Difficulty → ℚ
  | .EASY => 2
  | .MEDIUM => 1
  | .HARD => 1 / 2

def get_bullet_spawn_interval : Difficulty → ℚ
  | .EASY => 3
  | .MEDIUM => 2
  | .HARD => 1

def get_bullet_speed : Difficulty → ℚ
  | .EASY => 3
  | .MEDIUM => 5
  | .HARD => 7

/-! ### Session registry -/

/-- The id-allocation loop of `accept_connections` (src/server.py lines
202-205): starting from 1, count up while the candidate is used.  The
Python `while` has no bound; `fuel` is chosen large enough in
`nextClientId` that the loop always exits before exhausting it. -/
def findId (used : List ℕ) : ℕ → ℕ → ℕ
  | 0, k => k
  | fuel + 1, k => if k ∈ used then findId used fuel (k + 1) else k

/-- Smallest positive integer not currently used as a client id. -/
def nextClientId (used : List ℕ) : ℕ :=
  findId used (used.foldr max 0 + 1) 1

/-- Fresh player record created on accept
(src/server.py lines 216-228). -/
def defaultPlayer (cid : ℕ) : Player :=
  { id := (cid : ℚ), x := 400, y := 300, angle := 0, health := 6, max_health := 6,
    score := 0, character := 0, sword_attacking := false,
    speed_boost_active := false, immunity_boost_active := false }

/-- One accepted TCP connection (src/server.py lines 191-253): capacity
check, id allocation, client and player creation, welcome message and
join broadcast. -/
def accept_connection (now : ℚ) (st : ServerState) : ServerState × List Event :=
  if st.clients.length ≥ st.max_players ∧ st.max_players ≠ 0 then
    (st, [Event.rejected])
  else
    let cid := nextClientId (st.clients.map Prod.fst)
    ({ st with
        clients := alSet cid { connected := true, last_heartbeat := now } st.clients,
        players := alSet cid (defaultPlayer cid) st.players },
     [Event.connected_msg cid, Event.player_joined cid])

/-- `disconnect_client` (src/server.py lines 339-356): removes the
session and its player, broadcasts `player_left` unconditionally. -/
def disconnect_client (cid : ℕ) (st : ServerState) : ServerState × List Event :=
  ({ st with clients := alErase cid st.clients, players := alErase cid st.players },
   [Event.player_left cid])

/-- `check_client_timeouts` (src/server.py lines 460-475): collect the
connected clients whose heartbeat is older than 60 wall-clock seconds,
then disconnect them one by one. -/
def check_client_timeouts (now : ℚ) (st : ServerState) : ServerState :=
  let timed_out :=
    (st.clients.filter fun kv =>
      kv.2.connected && decide (now - kv.2.last_heartbeat > timeout_threshold)).map Prod.fst
  timed_out.foldl (fun s cid => (disconnect_client cid s).1) st

/-! ### Game start and chaser spawning -/

/-- Player reset performed by `start_game` (src/server.py lines
379-386); angle, character and boost flags are not touched there. -/
def resetPlayer (p : Player) : Player :=
  { p with x := 400, y := 300, health := 6, score := 0, sword_attacking := false }

/-- `spawn_chasers` (src/server.py lines 394-424).  The
rejection-sampled random spawn point of chaser `i` is `env.spawnPos i`. -/
def spawn_chasers (env : Env) (st : ServerState) : ServerState :=
  { st with
      chasers := (List.range (get_chaser_count st.difficulty)).map fun i =>
        { id := i, x := (env.spawnPos i).1, y := (env.spawnPos i).2, angle := 0,
          speed := get_chaser_speed st.difficulty, health := 1 } }

/-- `start_game` (src/server.py lines 358-392). -/
def start_game (env : Env) (st : ServerState) : ServerState × List Event :=
  let st1 : ServerState :=
    { st with
        game_state := GameState.PLAYING,
        game_time := 0,
        auto_started := true,
        player_damage_cooldowns := [],
        player_score_times := [],
        global_score := 0,
        last_global_score_time := 0,
        chaser_respawn_times := [],
        players := st.players.map fun kv => (kv.1, resetPlayer kv.2) }
  (spawn_chasers env st1, [Event.game_started])

/-! ### Simulation sub-steps -/

/-- Nearest-player search used by `update_chasers` and `spawn_bullets`
(src/server.py lines 520-528): the running minimum is updated on a
strict comparison, so the first player attaining the minimal distance is
kept.  Comparisons of true distances are replaced by comparisons of
squared distances, preserving the argmin. -/
def nearestPlayerSq (cx cy : ℚ) (ps : List (ℕ × Player)) : Option (ℚ × Player) :=
  ps.foldl
    (fun acc kv =>
      let d := distSq kv.2.x kv.2.y cx cy
      match acc with
      | none => some (d, kv.2)
      | some best => if d < best.1 then some (d, kv.2) else some best)
    none

/-- `update_chasers` (src/server.py lines 514-549): a chaser inside the
128-unit light radius of its nearest player holds position; otherwise it
moves by the normalised direction towards that player scaled by its
speed, and faces it.  The normalised direction and the degree angle are
`env.chaserDir` applied to the chaser position in the chaser list. -/
def update_chasers (env : Env) (st : ServerState) : ServerState :=
  if st.players = [] then st
  else
    { st with
        chasers := (st.chasers.enum.map fun ci =>
          let c := ci.2
          match nearestPlayerSq c.x c.y st.players with
          | none => c
          | some dp =>
            if dp.1 < 16384 then c
            else
              let dx := dp.2.x - c.x
              let dy := dp.2.y - c.y
              if dx * dx + dy * dy > 0 then
                let dir := env.chaserDir ci.1
                { c with x := c.x + dir.1 * c.speed, y := c.y + dir.2.1 * c.speed,
                         angle := dir.2.2 }
              else c) }

/-- `spawn_bullets` (src/server.py lines 551-599).  The lazily created
`last_bullet_time` attribute is materialised to `0` when absent; every
chaser whose nearest player is within range 400 but outside the 128
light radius emits one bullet towards that player, with the normalised
direction supplied by `env.bulletDir`. -/
def spawn_bullets (env : Env) (st : ServerState) : ServerState :=
  let lbt := st.last_bullet_time.getD 0
  if st.game_time - lbt ≥ get_bullet_spawn_interval st.difficulty then
    let newBullets := st.chasers.enum.filterMap fun ci =>
      let c := ci.2
      if st.players = [] then none
      else
        match nearestPlayerSq c.x c.y st.players with
        | none => none
        | some dp =>
          if dp.1 < 160000 then
            if dp.1 < 16384 then none
            else
              let dx := dp.2.x - c.x
              let dy := dp.2.y - c.y
              if dx * dx + dy * dy > 0 then
                let dir := env.bulletDir ci.1
                some { x := c.x, y := c.y,
                       dx := dir.1 * get_bullet_speed st.difficulty,
                       dy := dir.2 * get_bullet_speed st.difficulty }
              else none
          else none
    { st with bullets := st.bullets ++ newBullets, last_bullet_time := some st.game_time }
  else { st with last_bullet_time := some lbt }

/-- `update_bullets` (src/server.py lines 619-628): every bullet moves
by its fixed per-tick delta (the `dt` parameter is unused in the
source), then bullets outside `[0,800] x [0,600]` are discarded. -/
def update_bullets (st : ServerState) : ServerState :=
  { st with
      bullets := (st.bullets.map fun b => { b with x := b.x + b.dx, y := b.y + b.dy }).filter
        fun b => !(b.x < 0 || b.x > 800 || b.y < 0 || b.y > 600) }

/-- Body of the player-bullet collision loop for one player
(src/server.py lines 633-655): the first bullet within radius 20 is
processed; damage is applied only when the player is not immune and the
1-second wall-clock cooldown has elapsed; a death teleports the player
to (400,300), restores full health and broadcasts `player_respawned`
(`handle_player_death`, lines 672-681); the bullet is removed and the
scan breaks in every hit case. -/
def bulletStepOne (now : ℚ) (acc : ServerState × List Event) (pid : ℕ) :
    ServerState × List Event :=
  let st := acc.1
  match alGet pid st.players with
  | none => acc
  | some p =>
    match st.bullets.find? (fun b => decide (distSq p.x p.y b.x b.y < 400)) with
    | none => acc
    | some b =>
      let damaged : ServerState × List Event :=
        if p.immunity_boost_active then acc
        else
          let last := (alGet pid st.player_damage_cooldowns).getD 0
          if now - last ≥ damage_cooldown_duration then
            let p1 := { p with health := p.health - 1 }
            let st1 := { st with
              players := alSet pid p1 st.players,
              player_damage_cooldowns := alSet pid now st.player_damage_cooldowns }
            if p1.health ≤ 0 then
              let p2 := { p1 with x := 400, y := 300, health := 6 }
              ({ st1 with players := alSet pid p2 st1.players },
               acc.2 ++ [Event.player_respawned pid])
            else (st1, acc.2)
          else acc
      ({ damaged.1 with bullets := damaged.1.bullets.erase b }, damaged.2)

/-- Player-bullet collision pass over all players in dict order
(src/server.py lines 633-655). -/
def bulletPass (now : ℚ) (st : ServerState) : ServerState × List Event :=
  (st.players.map Prod.fst).foldl (bulletStepOne now) (st, [])

/-- Body of the sword-chaser collision loop for one attacking player
(src/server.py lines 658-670): the first chaser within radius 80 is
scheduled for respawn at `game_time + 2.0` under its id and removed,
the attacker gains 5 points, the global score gains 5, the attack flag
is cleared and the scan breaks. -/
def swordStepOne (st : ServerState) (pid : ℕ) : ServerState :=
  match alGet pid st.players with
  | none => st
  | some p =>
    if p.sword_attacking then
      match st.chasers.find? (fun c => decide (distSq p.x p.y c.x c.y < 6400)) with
      | none => st
      | some c =>
        { st with
            chaser_respawn_times :=
              alSet c.id (st.game_time + chaser_respawn_delay) st.chaser_respawn_times,
            chasers := st.chasers.erase c,
            players := alModify pid
              (fun q => { q with score := q.score + 5, sword_attacking := false }) st.players,
            global_score := st.global_score + 5 }
    else st

/-- Sword-chaser collision pass over all players in dict order
(src/server.py lines 657-670). -/
def swordPass (st : ServerState) : ServerState :=
  (st.players.map Prod.fst).foldl swordStepOne st

/-- `check_collisions` (src/server.py lines 630-670): the bullet pass,
then the sword pass. -/
def check_collisions (now : ℚ) (st : ServerState) : ServerState × List Event :=
  let r := bulletPass now st
  (swordPass r.1, r.2)

/-- `spawn_powerups` (src/server.py lines 692-701): with probability
0.001 per tick a random powerup appears; the RNG outcome is
`env.powerupRoll`. -/
def spawn_powerups (env : Env) (st : ServerState) : ServerState :=
  { st with powerups := st.powerups ++ env.powerupRoll.toList }

/-- Chaser rebuilt by `spawn_single_chaser` (src/server.py lines
718-744) with its original id and a fresh `env.respawnPos` position. -/
def respawnedChaser (env : Env) (d : Difficulty) (cid : ℕ) : Chaser :=
  { id := cid, x := (env.respawnPos cid).1, y := (env.respawnPos cid).2, angle := 0,
    speed := get_chaser_speed d, health := 1 }

/-- `update_chaser_respawns` (src/server.py lines 703-716): every
pending respawn whose scheduled time has arrived is re-materialised (in
schedule insertion order) and dropped from the schedule. -/
def update_chaser_respawns (env : Env) (st : ServerState) : ServerState :=
  let due := st.chaser_respawn_times.filter fun kv => decide (st.game_time ≥ kv.2)
  { st with
      chasers := st.chasers ++ due.map fun kv => respawnedChaser env st.difficulty kv.1,
      chaser_respawn_times :=
        st.chaser_respawn_times.filter fun kv => !(decide (st.game_time ≥ kv.2)) }

/-- Body of the per-player score accrual loop (src/server.py lines
498-507): a player first seen is stamped with the current game time,
then gains 1 point whenever 10 game-time seconds have passed since its
own last scoring event. -/
def score_tick_fold (gt : ℚ) (acc : List (ℕ × Player) × List (ℕ × ℚ)) (pid : ℕ) :
    List (ℕ × Player) × List (ℕ × ℚ) :=
  let times := if (alGet pid acc.2).isSome then acc.2 else alSet pid gt acc.2
  let t := (alGet pid times).getD gt
  if gt - t ≥ 10 then
    (alModify pid (fun p => { p with score := p.score + 1 }) acc.1, alSet pid gt times)
  else (acc.1, times)

/-- Per-player score accrual pass (src/server.py lines 498-507). -/
def players_score_tick (st : ServerState) : ServerState :=
  let r := (st.players.map Prod.fst).foldl (score_tick_fold st.game_time)
    (st.players, st.player_score_times)
  { st with players := r.1, player_score_times := r.2 }

/-- Global score accrual (src/server.py lines 509-512): add 1 point and
restamp the clock when at least `global_score_interval` game-time
seconds have passed since the previous global increment. -/
def global_score_tick (st : ServerState) : ServerState :=
  if st.game_time - st.last_global_score_time ≥ global_score_interval then
    { st with global_score := st.global_score + 1, last_global_score_time := st.game_time }
  else st

/-- `update_game_state` (src/server.py lines 477-512): the fixed
sub-step order of one PLAYING tick. -/
def update_game_state (env : Env) (st : ServerState) : ServerState :=
  global_score_tick
    (players_score_tick
      (update_chaser_respawns env
        (spawn_powerups env
          ((check_collisions env.now
            (update_bullets
              (spawn_bullets env
                (update_chasers env st)))).1))))

/-- The state reached when the sword-chaser pass of a tick starts: all
sub-steps of `update_game_state` that run before it. -/
def preSword (env : Env) (st : ServerState) : ServerState :=
  (bulletPass env.now (update_bullets (spawn_bullets env (update_chasers env st)))).1

/-- One iteration of `game_loop` (src/server.py lines 444-458): the
timeout sweep always runs; game time advances and the world updates only
while the phase is PLAYING. -/
def gameTick (env : Env) (st : ServerState) : ServerState :=
  let s1 := check_client_timeouts env.now st
  if s1.game_state = GameState.PLAYING then
    update_game_state env { s1 with game_time := s1.game_time + env.dt }
  else s1

/-! ### Inbound message processing -/

/-- Object field lookup `message.get(k)`; reproduces the duplicate-key
collapse of `json.loads` by keeping the last binding. -/
def jget (m : Json) (k : String) : Option Json :=
  match m with
  | Json.obj kvs => kvs.foldl (fun acc kv => if kv.1 = k then some kv.2 else acc) none
  | _ => none

/-- String-typed field lookup. -/
def jgetStr (m : Json) (k : String) : Option String :=
  match jget m k with
  | some (Json.str s) => some s
  | _ => none

/-- Field-wise merge of one `player_update` key/value pair
(src/server.py lines 302-303).  The source stores arbitrary values into
the player dict without validation; on this typed record a pair is
applied when its value has the type of the documented field and is
dropped otherwise. -/
def setField (p : Player) (kv : String × Json) : Player :=
  match kv with
  | ("id", Json.num q) => { p with id := q }
  | ("x", Json.num q) => { p with x := q }
  | ("y", Json.num q) => { p with y := q }
  | ("angle", Json.num q) => { p with angle := q }
  | ("health", Json.num q) => { p with health := q }
  | ("max_health", Json.num q) => { p with max_health := q }
  | ("score", Json.num q) => { p with score := q }
  | ("character", Json.num q) => { p with character := q }
  | ("sword_attacking", Json.bool b) => { p with sword_attacking := b }
  | ("speed_boost_active", Json.bool b) => { p with speed_boost_active := b }
  | ("immunity_boost_active", Json.bool b) => { p with immunity_boost_active := b }
  | _ => p

/-- Merge a `player_update` payload into the sender's player record
(src/server.py lines 295-303), last writer per field winning. -/
def mergeInto (cid : ℕ) (fields : List (String × Json)) (st : ServerState) : ServerState :=
  { st with players := alModify cid (fun p => fields.foldl setField p) st.players }

/-- Set the sender's attack flag (src/server.py line 309). -/
def setAttacking (cid : ℕ) (st : ServerState) : ServerState :=
  { st with players := alModify cid (fun p => { p with sword_attacking := true }) st.players }

/-- Refresh the sender's heartbeat timestamp (src/server.py lines
312-315). -/
def touchHeartbeat (now : ℚ) (cid : ℕ) (st : ServerState) : ServerState :=
  { st with clients := alModify cid (fun c => { c with last_heartbeat := now }) st.clients }

/-- `set_difficulty` value check (src/server.py lines 324-326): Python
membership `difficulty in [1, 2, 3]` uses numeric equality, under which
a JSON `true` equals 1 and selects EASY; any other non-integral value
fails the test. -/
def difficultyOf (j : Option Json) : Option Difficulty :=
  match j with
  | some (Json.num q) =>
    if q = 1 then some Difficulty.EASY
    else if q = 2 then some Difficulty.MEDIUM
    else if q = 3 then some Difficulty.HARD
    else none
  | some (Json.bool b) => if b then some Difficulty.EASY else none
  | _ => none

/-- `process_client_message` (src/server.py lines 291-337), as a
fallible computation.  The two raising paths are translated from the
source: calling `.get` on a decoded message that is not an object raises
`AttributeError` (line 293), calling `.items()` on a `player_update`
payload whose `data` is not an object raises `AttributeError` (line
302), and the `info_request` branch references the name `client_socket`
which is not defined in this function's scope, raising `NameError`
(line 337). -/
def process_client_message (env : Env) (cid : ℕ) (m : Json) (st : ServerState) :
    Except Unit (ServerState × List Event) :=
  match m with
  | Json.obj _ =>
    let t := jgetStr m "type"
    if t = some "player_update" then
      if (alGet cid st.players).isSome then
        match jget m "data" with
        | none => Except.ok (mergeInto cid [] st, [])
        | some (Json.obj fields) => Except.ok (mergeInto cid fields st, [])
        | some _ => Except.error ()
      else Except.ok (st, [])
    else if t = some "player_action" then
      if jgetStr m "action" = some "sword_attack" ∧ (alGet cid st.players).isSome then
        Except.ok (setAttacking cid st, [Event.sword_attack_evt cid])
      else Except.ok (st, [])
    else if t = some "heartbeat" then
      Except.ok (touchHeartbeat env.now cid st, [])
    else if t = some "start_game" then
      if st.game_state = GameState.MENU then Except.ok (start_game env st)
      else Except.ok (st, [])
    else if t = some "set_difficulty" then
      match difficultyOf (jget m "difficulty") with
      | some d => Except.ok ({ st with difficulty := d }, [Event.difficulty_changed])
      | none => Except.ok (st, [])
    else if t = some "info_request" then
      Except.error ()
    else Except.ok (st, [])
  | _ => Except.error ()

/-- One decoded line as handled by the read loop of `handle_client`
(src/server.py lines 264-289): a line that fails `json.loads` is logged
and dropped; an exception escaping `process_client_message` is caught by
the generic handler, which breaks the loop so that `disconnect_client`
runs. -/
def handleLine (env : Env) (cid : ℕ) (l : RawLine) (st : ServerState) : ServerState :=
  match l with
  | RawLine.invalid _ => st
  | RawLine.valid m =>
    match process_client_message env cid m st with
    | Except.ok r => r.1
    | Except.error _ => (disconnect_client cid st).1

/-! ### Broadcast publisher -/

/-- `send_to_client` (src/server.py lines 766-772): the socket send is
wrapped in a `try`/`except` that swallows every exception, so the call
never propagates a failure to its caller.  The Boolean argument records
whether the underlying send raised; the result is whether the message
was delivered. -/
def send_to_client (sendRaises : Bool) : Except Unit Bool :=
  Except.ok (!sendRaises)

/-- Body of the send loop in `broadcast_to_all`: one attempted send.
The first accumulator component collects the clients that received the
message, the second collects `disconnected_clients`, the clients whose
send call raised out of `send_to_client`. -/
def broadcastStep (sendRaises : ℕ → Bool) (acc : List ℕ × List ℕ) (kv : ℕ × ClientInfo) :
    List ℕ × List ℕ :=
  match send_to_client (sendRaises kv.1) with
  | Except.ok true => (acc.1 ++ [kv.1], acc.2)
  | Except.ok false => acc
  | Except.error _ => (acc.1, acc.2 ++ [kv.1])

/-- The send loop of `broadcast_to_all` over the snapshot. -/
def broadcastAcc (sendRaises : ℕ → Bool) (snapshot : List (ℕ × ClientInfo)) :
    List ℕ × List ℕ :=
  snapshot.foldl (broadcastStep sendRaises) ([], [])

/-- `broadcast_to_all` (src/server.py lines 774-790): iterate a
snapshot of the client list, attempt each send, collect into
`disconnected_clients` any client whose send call raised, and
disconnect those afterwards.  Because `send_to_client` never raises,
the collection branch is unreachable.  Returns the new state and the
list of clients to which the message was delivered. -/
def broadcast_to_all (sendRaises : ℕ → Bool) (st : ServerState) : ServerState × List ℕ :=
  ((broadcastAcc sendRaises st.clients).2.foldl
      (fun s cid => (disconnect_client cid s).1) st,
   (broadcastAcc sendRaises st.clients).1)

/-! ### Whole-server step machine -/

/-- Initial server state after `__init__` (src/server.py lines 74-103),
parameterised by the configured capacity and difficulty. -/
def initialState (maxPlayers : ℕ) (d : Difficulty) : ServerState :=
  { clients := [], players := [], game_state := GameState.MENU, chasers := [],
    bullets := [], powerups := [], game_time := 0, global_score := 0,
    last_global_score_time := 0, difficulty := d, max_players := maxPlayers,
    player_damage_cooldowns := [], chaser_respawn_times := [], player_score_times := [],
    last_bullet_time := none, auto_started := false }

/-- One externally triggered transition of the server: a simulation
tick, one decoded line from a client, an accepted connection, a
disconnect, or the delayed auto-start (src/server.py lines 847-853). -/
inductive StepDesc where
  | tick (env : Env)
  | line (cid : ℕ) (l : RawLine) (env : Env)
  | connect (now : ℚ)
  | disconnect (cid : ℕ)
  | autoStart (env : Env)

/-- Effect of one transition on the server state. -/
def applyStep : StepDesc → ServerState → ServerState
  | StepDesc.tick env, s => gameTick env s
  | StepDesc.line cid l env, s => handleLine env cid l s
  | StepDesc.connect now, s => (accept_connection now s).1
  | StepDesc.disconnect cid, s => (disconnect_client cid s).1
  | StepDesc.autoStart env, s =>
    if s.game_state = GameState.MENU ∧ s.auto_started = false then (start_game env s).1 else s

/-- A state is reachable when some sequence of transitions leads to it
from an initial state. -/
def Reachable (s : ServerState) : Prop :=
  ∃ mp d, Relation.ReflTransGen (fun a b => ∃ dsc, applyStep dsc a = b) (initialState mp d) s

/-- Whether a transition is the processing of a `player_update`
message. -/
def isPlayerUpdateStep : StepDesc → Bool
  | StepDesc.line _ (RawLine.valid m) _ => jgetStr m "type" = some "player_update"
  | _ => false

/-! ### Statements of the spec claims that turn out to be false

These definitions transcribe the disputed claims literally, so that a
counterexample can refute the quantified statement as written. -/

/-- Claim C3 as stated: during a collision pass, every bullet within
radius 20 of some player is removed from the bullet list. -/
def ClaimC3 : Prop :=
  ∀ now st pid p b, alGet pid st.players = some p → b ∈ st.bullets →
    distSq p.x p.y b.x b.y < 400 → b ∉ (bulletPass now st).1.bullets

/-- Claim C5 as stated: along every step from a reachable state the
global score and every surviving player score are non-decreasing, with
the only allowed exception a reset to zero. -/
def ClaimC5 : Prop :=
  ∀ s s', Reachable s → (∃ dsc, applyStep dsc s = s') →
    (s.global_score ≤ s'.global_score ∨ s'.global_score = 0)
    ∧ ∀ pid p p', alGet pid s.players = some p → alGet pid s'.players = some p' →
        p.score ≤ p'.score ∨ p'.score = 0

/-- The message types carrying a handler in `process_client_message`. -/
def knownMsgTypes : List String :=
  ["player_update", "player_action", "heartbeat", "start_game", "set_difficulty",
   "info_request"]

/-- Claim C8 as stated: a decoded message with an unknown type, a
non-object message, or a `player_update` with a non-object `data`
payload is silently ignored leaving the state (hence the session)
intact, and a line that fails JSON parsing is dropped likewise. -/
def ClaimC8 : Prop :=
  (∀ env cid st (m : Json),
      ((∀ kvs, m ≠ Json.obj kvs)
        ∨ (jgetStr m "type" = some "player_update"
            ∧ ∃ d, jget m "data" = some d ∧ ∀ kvs, d ≠ Json.obj kvs)
        ∨ ((∃ kvs, m = Json.obj kvs)
            ∧ ∀ t, jgetStr m "type" = some t → t ∉ knownMsgTypes)) →
      handleLine env cid (RawLine.valid m) st = st)
  ∧ ∀ env cid st s, handleLine env cid (RawLine.invalid s) st = st

/-! ### Concrete fixtures used by witnesses and counterexamples -/

/-- A fixed oracle for concrete evaluations. -/
def env0 : Env :=
  { dt := 1, now := 100, chaserDir := fun _ => (0, 0, 0), bulletDir := fun _ => (0, 0),
    powerupRoll := none, respawnPos := fun _ => (100, 100), spawnPos := fun _ => (100, 100) }

/-- Server with one accepted client (id 1). -/
def stOne : ServerState := (accept_connection 0 (initialState 4 Difficulty.MEDIUM)).1

/-- Server with two accepted clients (ids 1 and 2). -/
def stTwo : ServerState := (accept_connection 0 stOne).1

/-- An immune player used to show cooldown-free bullet consumption. -/
def pImmune : Player := { defaultPlayer 1 with immunity_boost_active := true }

/-- Fixture for the C3 counterexample: one player at the centre and two
bullets both within the hit radius. -/
def stTwoBullets : ServerState :=
  { stOne with
      players := [(1, pImmune)],
      bullets := [{ x := 400, y := 300, dx := 0, dy := 0 },
                  { x := 401, y := 300, dx := 0, dy := 0 }] }

/-- A player at 1 health used for the death-respawn scenario. -/
def pLow : Player := { defaultPlayer 1 with health := 1 }

/-- Fixture for the C2 witness: a 1-health player with one bullet in
hit range. -/
def stLowHealth : ServerState :=
  { stOne with
      players := [(1, pLow)],
      bullets := [{ x := 405, y := 300, dx := 0, dy := 0 }] }

/-- First attacker for the two-attacker sword scenario. -/
def paF : Player := { defaultPlayer 1 with sword_attacking := true }

/-- Second attacker for the two-attacker sword scenario. -/
def pbF : Player := { defaultPlayer 2 with x := 410, sword_attacking := true }

/-- The single chaser both attackers can reach. -/
def chF : Chaser := { id := 0, x := 405, y := 300, angle := 0, speed := 1, health := 1 }

/-- Fixture for the C1 witness: two attacking players in sword range of
one chaser. -/
def stDouble : ServerState :=
  { stTwo with
      players := [(1, paF), (2, pbF)],
      chasers := [chF],
      game_state := GameState.PLAYING,
      game_time := 7 }

/-- Fixture for the C10 witness: a PLAYING state with one attacking
player and no chasers anywhere in range. -/
def stSword : ServerState :=
  { stOne with players := [(1, paF)], game_state := GameState.PLAYING }

/-- A `player_update` message that writes the given score. -/
def scoreMsg (q : ℚ) : Json :=
  Json.obj [("type", Json.str "player_update"), ("data", Json.obj [("score", Json.num q)])]

/-- State reached from a fresh server by one connect and one
`player_update` writing score 5. -/
def s5fix : ServerState := handleLine env0 1 (RawLine.valid (scoreMsg 5)) stOne

/-- State reached from `s5fix` by a `player_update` writing score 3. -/
def s3fix : ServerState := handleLine env0 1 (RawLine.valid (scoreMsg 3)) s5fix

/-- A `player_update` message whose `data` payload is not an object. -/
def badDataMsg : Json :=
  Json.obj [("type", Json.str "player_update"), ("data", Json.str "x")]

/-- An `info_request` message. -/
def infoMsg : Json := Json.obj [("type", Json.str "info_request")]

/-- A `player_action` message requesting a sword attack. -/
def swordAttackMsg : Json :=
  Json.obj [("type", Json.str "player_action"), ("action", Json.str "sword_attack")]

/-! ## Association list lemmas -/

theorem alGet_alSet_self (k : ℕ) (v : α) (l : List (ℕ × α)) :
    alGet k (alSet k v l) = some v := by
  induction l with
  | nil => simp [alGet, alSet]
  | cons kv rest ih =>
    by_cases h : kv.1 = k
    · simp [alGet, alSet, h]
    · simp [alGet, alSet, h, ih]

theorem alGet_alSet_ne (h : j ≠ k) (v : α) (l : List (ℕ × α)) :
    alGet j (alSet k v l) = alGet j l := by
  induction l with
  | nil => simp [alGet, alSet, Ne.symm h]
  | cons kv rest ih =>
    simp only [alSet]
    split_ifs with hk
    · simp [alGet, hk, Ne.symm h]
    · simp [alGet, ih]

theorem alGet_alModify_self (k : ℕ) (f : α → α) (l : List (ℕ × α)) :
    alGet k (alModify k f l) = (alGet k l).map f := by
  induction l with
  | nil => simp [alGet, alModify]
  | cons kv rest ih =>
    by_cases h : kv.1 = k
    · simp [alGet, alModify, h]
    · simp [alGet, alModify, h, ih]

theorem alGet_alModify_ne (h : j ≠ k) (f : α → α) (l : List (ℕ × α)) :
    alGet j (alModify k f l) = alGet j l := by
  induction l with
  | nil => simp [alGet, alModify]
  | cons kv rest ih =>
    simp only [alModify]
    split_ifs with hk
    · simp [alGet, hk, Ne.symm h]
    · simp [alGet, ih]

theorem alModify_keys (k : ℕ) (f : α → α) (l : List (ℕ × α)) :
    (alModify k f l).map Prod.fst = l.map Prod.fst := by
  induction l with
  | nil => simp [alModify]
  | cons kv rest ih =>
    by_cases h : kv.1 = k
    · simp [alModify, h]
    · simp [alModify, h, ih]

theorem alGet_mem_keys {k : ℕ} {v : α} {l : List (ℕ × α)} (h : alGet k l = some v) :
    k ∈ l.map Prod.fst := by
  induction l with
  | nil => simp [alGet] at h
  | cons kv rest ih =>
    by_cases hk : kv.1 = k
    · simp [hk]
    · simp [alGet, hk] at h
      simp [ih h]

theorem alSet_keys_of_mem {k : ℕ} (v : α) {l : List (ℕ × α)} (h : k ∈ l.map Prod.fst) :
    (alSet k v l).map Prod.fst = l.map Prod.fst := by
  induction l with
  | nil => simp at h
  | cons kv rest ih =>
    simp only [alSet]
    split_ifs with hk
    · simp [hk]
    · have h' : k ∈ rest.map Prod.fst := by
        rcases List.mem_map.mp h with ⟨x, hx, hfst⟩
        rcases List.mem_cons.mp hx with h0 | h0
        · exact absurd (h0 ▸ hfst) hk
        · exact List.mem_map.mpr ⟨x, h0, hfst⟩
      simp [ih h']

/-! ## Id allocation lemmas -/

theorem findId_spec (used : List ℕ) :
    ∀ fuel k, (∃ j, k ≤ j ∧ j < k + fuel ∧ j ∉ used) →
      findId used fuel k ∉ used ∧ k ≤ findId used fuel k ∧
        ∀ j, k ≤ j → j < findId used fuel k → j ∈ used := by
  intro fuel
  induction fuel with
  | zero =>
    intro k ⟨j, hkj, hjlt, _⟩
    omega
  | succ n ih =>
    intro k ⟨j, hkj, hjlt, hjnot⟩
    by_cases hk : k ∈ used
    · have hne : j ≠ k := fun hh => hjnot (hh ▸ hk)
      have h1 : k + 1 ≤ j := by omega
      have := ih (k + 1) ⟨j, h1, by omega, hjnot⟩
      rw [findId, if_pos hk]
      refine ⟨this.1, by omega, ?_⟩
      intro i hki hilt
      by_cases hik : i = k
      · exact hik ▸ hk
      · exact this.2.2 i (by omega) hilt
    · rw [findId, if_neg hk]
      exact ⟨hk, le_refl k, fun j h1 h2 => absurd (lt_of_le_of_lt h1 h2) (lt_irrefl k)⟩

theorem le_foldr_max (l : List ℕ) : ∀ x ∈ l, x ≤ l.foldr max 0 := by
  induction l with
  | nil => simp
  | cons a rest ih =>
    intro x hx
    simp only [List.foldr]
    rcases List.mem_cons.mp hx with h | h
    · subst h
      exact le_max_left _ _
    · exact le_trans (ih x h) (le_max_right _ _)

theorem nextClientId_spec (used : List ℕ) :
    nextClientId used ∉ used ∧ 1 ≤ nextClientId used ∧
      ∀ j, 1 ≤ j → j < nextClientId used → j ∈ used := by
  have hex : ∃ j, 1 ≤ j ∧ j < 1 + (used.foldr max 0 + 1) ∧ j ∉ used := by
    refine ⟨used.foldr max 0 + 1, by omega, by omega, fun hmem => ?_⟩
    have := le_foldr_max used _ hmem
    omega
  exact findId_spec used (used.foldr max 0 + 1) 1 hex

theorem nextClientId_eq_of_minimal {used : List ℕ} {k : ℕ} (hk : k ∉ used) (h1 : 1 ≤ k)
    (hmin : ∀ j, 1 ≤ j → j < k → j ∈ used) : nextClientId used = k := by
  obtain ⟨hn, hn1, hnmin⟩ := nextClientId_spec used
  rcases Nat.lt_trichotomy (nextClientId used) k with h | h | h
  · exact absurd (hmin _ hn1 h) hn
  · exact h
  · exact absurd (hnmin _ h1 h) hk

/-- C4: a successful accept allocates the smallest positive integer not
held by any active session (hence ids are never duplicated and a freed
smallest id is handed out next), and a connection arriving while the
active count is at a finite capacity is rejected with
`connection_rejected` and creates no session. -/
theorem C4_session_id_allocation :
    (∀ now st, st.clients.length ≥ st.max_players ∧ st.max_players ≠ 0 →
      accept_connection now st = (st, [Event.rejected]))
    ∧ (∀ now st, ¬(st.clients.length ≥ st.max_players ∧ st.max_players ≠ 0) →
        nextClientId (st.clients.map Prod.fst) ∉ st.clients.map Prod.fst
        ∧ 1 ≤ nextClientId (st.clients.map Prod.fst)
        ∧ (∀ j, 1 ≤ j → j < nextClientId (st.clients.map Prod.fst) →
            j ∈ st.clients.map Prod.fst)
        ∧ alGet (nextClientId (st.clients.map Prod.fst)) (accept_connection now st).1.clients
            = some { connected := true, last_heartbeat := now }
        ∧ alGet (nextClientId (st.clients.map Prod.fst)) (accept_connection now st).1.players
            = some (defaultPlayer (nextClientId (st.clients.map Prod.fst)))
        ∧ (accept_connection now st).2
            = [Event.connected_msg (nextClientId (st.clients.map Prod.fst)),
               Event.player_joined (nextClientId (st.clients.map Prod.fst))])
    ∧ (∀ used k, k ∉ used → 1 ≤ k → (∀ j, 1 ≤ j → j < k → j ∈ used) →
        nextClientId used = k) := by
  refine ⟨?_, ?_, fun used k hk h1 hmin => nextClientId_eq_of_minimal hk h1 hmin⟩
  · intro now st h
    simp [accept_connection, h]
  · intro now st h
    obtain ⟨hfree, h1, hmin⟩ := nextClientId_spec (st.clients.map Prod.fst)
    refine ⟨hfree, h1, hmin, ?_, ?_, ?_⟩
    · simp [accept_connection, h, alGet_alSet_self]
    · simp [accept_connection, h, alGet_alSet_self]
    · simp [accept_connection, h]

/-- Closed witness for `C4_session_id_allocation`: a full server with
capacity 1 rejects; an empty server accepts with id 1; after freeing id
1 from a registry holding ids 1 and 2, the next id handed out is 1. -/
theorem C4_session_id_allocation_witness :
    accept_connection 0 { initialState 1 Difficulty.MEDIUM with
        clients := [(1, { connected := true, last_heartbeat := 0 })] }
      = ({ initialState 1 Difficulty.MEDIUM with
        clients := [(1, { connected := true, last_heartbeat := 0 })] }, [Event.rejected])
    ∧ alGet 1 (accept_connection 0 (initialState 4 Difficulty.MEDIUM)).1.players
        = some (defaultPlayer 1)
    ∧ nextClientId [2] = 1 := by
  refine ⟨(C4_session_id_allocation.1 _ _ (by decide)), ?_, ?_⟩
  · have h := (C4_session_id_allocation.2.1 0 (initialState 4 Difficulty.MEDIUM)
      (by decide)).2.2.2.2.1
    simpa using h
  · exact C4_session_id_allocation.2.2 [2] 1 (by decide) (by decide)
      (by intro j hj1 hj2; omega)

/-! ## Collision step lemmas -/

theorem swordStepOne_hit {st : ServerState} {pid : ℕ} {p : Player} {c : Chaser}
    (hp : alGet pid st.players = some p) (hatk : p.sword_attacking = true)
    (hfind : st.chasers.find? (fun ch => decide (distSq p.x p.y ch.x ch.y < 6400))
      = some c) :
    swordStepOne st pid =
      { st with
          chaser_respawn_times :=
            alSet c.id (st.game_time + chaser_respawn_delay) st.chaser_respawn_times,
          chasers := st.chasers.erase c,
          players := alModify pid
            (fun q => { q with score := q.score + 5, sword_attacking := false }) st.players,
          global_score := st.global_score + 5 } := by
  simp [swordStepOne, hp, hatk, hfind]

theorem swordStepOne_miss {st : ServerState} {pid : ℕ} {p : Player}
    (hp : alGet pid st.players = some p) (hatk : p.sword_attacking = true)
    (hfind : st.chasers.find? (fun ch => decide (distSq p.x p.y ch.x ch.y < 6400))
      = none) :
    swordStepOne st pid = st := by
  simp [swordStepOne, hp, hatk, hfind]

theorem swordStepOne_noflag {st : ServerState} {pid : ℕ} {p : Player}
    (hp : alGet pid st.players = some p) (hatk : p.sword_attacking = false) :
    swordStepOne st pid = st := by
  simp [swordStepOne, hp, hatk]

theorem swordStepOne_absent {st : ServerState} {pid : ℕ}
    (hp : alGet pid st.players = none) : swordStepOne st pid = st := by
  simp [swordStepOne, hp]

theorem bulletStepOne_nobullet {st : ServerState} {evs : List Event} {pid : ℕ} {p : Player}
    (hp : alGet pid st.players = some p)
    (hfind : st.bullets.find? (fun b => decide (distSq p.x p.y b.x b.y < 400)) = none) :
    bulletStepOne now (st, evs) pid = (st, evs) := by
  simp [bulletStepOne, hp, hfind]

theorem bulletStepOne_absent {st : ServerState} {evs : List Event} {pid : ℕ}
    (hp : alGet pid st.players = none) :
    bulletStepOne now (st, evs) pid = (st, evs) := by
  simp [bulletStepOne, hp]

theorem bulletStepOne_immune {now : ℚ} {st : ServerState} {evs : List Event} {pid : ℕ}
    {p : Player} {b : Bullet}
    (hp : alGet pid st.players = some p) (himm : p.immunity_boost_active = true)
    (hfind : st.bullets.find? (fun b => decide (distSq p.x p.y b.x b.y < 400)) = some b) :
    bulletStepOne now (st, evs) pid = ({ st with bullets := st.bullets.erase b }, evs) := by
  simp [bulletStepOne, hp, himm, hfind]

theorem bulletStepOne_cooldown {now : ℚ} {st : ServerState} {evs : List Event} {pid : ℕ}
    {p : Player} {b : Bullet}
    (hp : alGet pid st.players = some p) (himm : p.immunity_boost_active = false)
    (hcool : ¬(now - (alGet pid st.player_damage_cooldowns).getD 0 ≥ damage_cooldown_duration))
    (hfind : st.bullets.find? (fun b => decide (distSq p.x p.y b.x b.y < 400)) = some b) :
    bulletStepOne now (st, evs) pid = ({ st with bullets := st.bullets.erase b }, evs) := by
  simp [bulletStepOne, hp, himm, hfind, hcool]

theorem bulletStepOne_damage_alive {now : ℚ} {st : ServerState} {evs : List Event} {pid : ℕ}
    {p : Player} {b : Bullet}
    (hp : alGet pid st.players = some p) (himm : p.immunity_boost_active = false)
    (hcool : now - (alGet pid st.player_damage_cooldowns).getD 0 ≥ damage_cooldown_duration)
    (hfind : st.bullets.find? (fun b => decide (distSq p.x p.y b.x b.y < 400)) = some b)
    (halive : ¬(p.health - 1 ≤ 0)) :
    bulletStepOne now (st, evs) pid =
      ({ st with
          players := alSet pid { p with health := p.health - 1 } st.players,
          player_damage_cooldowns := alSet pid now st.player_damage_cooldowns,
          bullets := st.bullets.erase b }, evs) := by
  simp [bulletStepOne, hp, himm, hfind, hcool, halive]

theorem bulletStepOne_damage_death {now : ℚ} {st : ServerState} {evs : List Event} {pid : ℕ}
    {p : Player} {b : Bullet}
    (hp : alGet pid st.players = some p) (himm : p.immunity_boost_active = false)
    (hcool : now - (alGet pid st.player_damage_cooldowns).getD 0 ≥ damage_cooldown_duration)
    (hfind : st.bullets.find? (fun b => decide (distSq p.x p.y b.x b.y < 400)) = some b)
    (hdead : p.health - 1 ≤ 0) :
    bulletStepOne now (st, evs) pid =
      ({ st with
          players := alSet pid { p with x := 400, y := 300, health := 6 }
            (alSet pid { p with health := p.health - 1 } st.players),
          player_damage_cooldowns := alSet pid now st.player_damage_cooldowns,
          bullets := st.bullets.erase b }, evs ++ [Event.player_respawned pid]) := by
  simp [bulletStepOne, hp, himm, hfind, hcool, hdead]

theorem find?_some_of_exists {α} {p : α → Bool} {l : List α} (h : ∃ x ∈ l, p x = true) :
    ∃ a, l.find? p = some a := by
  induction l with
  | nil =>
    obtain ⟨x, hx, _⟩ := h
    cases hx
  | cons a rest ih =>
    by_cases hpa : p a = true
    · exact ⟨a, by simp [List.find?, hpa]⟩
    · obtain ⟨x, hx, hpx⟩ := h
      rcases List.mem_cons.mp hx with rfl | hx'
      · exact absurd hpx hpa
      · obtain ⟨c, hc⟩ := ih ⟨x, hx', hpx⟩
        exact ⟨c, by simp [List.find?, hpa, hc]⟩

/-- C1: for a PLAYING state, an attacking player with a chaser in sword
range removes exactly one chaser (the first in range), schedules its
respawn at `game_time + 2.0` under its original id, gains exactly 5
points while the global score gains exactly 5, and has the attack flag
cleared; and when two attacking players are both in range of the same
single chaser in one pass, exactly one removal and one +5/+5 award
happen. -/
theorem C1_sword_hit :
    (∀ st pid p, st.game_state = GameState.PLAYING →
      alGet pid st.players = some p → p.sword_attacking = true →
      (∃ ch ∈ st.chasers, distSq p.x p.y ch.x ch.y < 6400) →
      ∃ c, st.chasers.find? (fun ch => decide (distSq p.x p.y ch.x ch.y < 6400)) = some c
        ∧ (swordStepOne st pid).chasers = st.chasers.erase c
        ∧ (swordStepOne st pid).chasers.length + 1 = st.chasers.length
        ∧ alGet c.id (swordStepOne st pid).chaser_respawn_times
            = some (st.game_time + chaser_respawn_delay)
        ∧ alGet pid (swordStepOne st pid).players
            = some { p with score := p.score + 5, sword_attacking := false }
        ∧ (swordStepOne st pid).global_score = st.global_score + 5)
    ∧ (∀ st a b pa pb c, st.game_state = GameState.PLAYING → a ≠ b →
        st.players = [(a, pa), (b, pb)] →
        pa.sword_attacking = true → pb.sword_attacking = true →
        st.chasers = [c] →
        distSq pa.x pa.y c.x c.y < 6400 → distSq pb.x pb.y c.x c.y < 6400 →
        (swordPass st).chasers = []
        ∧ alGet a (swordPass st).players
            = some { pa with score := pa.score + 5, sword_attacking := false }
        ∧ alGet b (swordPass st).players = some pb
        ∧ (swordPass st).global_score = st.global_score + 5
        ∧ alGet c.id (swordPass st).chaser_respawn_times
            = some (st.game_time + chaser_respawn_delay)) := by
  constructor
  · intro st pid p _ hp hatk hex
    have hex' : ∃ x ∈ st.chasers,
        (fun ch => decide (distSq p.x p.y ch.x ch.y < 6400)) x = true := by
      obtain ⟨ch, hmem, hd⟩ := hex
      exact ⟨ch, hmem, by simpa using hd⟩
    obtain ⟨c, hfind⟩ := find?_some_of_exists hex'
    have hmem : c ∈ st.chasers := List.mem_of_find?_eq_some hfind
    have hlen := List.length_erase_of_mem hmem
    have hpos : 0 < st.chasers.length := List.length_pos_of_mem hmem
    refine ⟨c, hfind, ?_⟩
    rw [swordStepOne_hit hp hatk hfind]
    refine ⟨rfl, ?_, by simp [alGet_alSet_self], ?_, rfl⟩
    · show (st.chasers.erase c).length + 1 = st.chasers.length
      omega
    · simp [alGet_alModify_self, hp]
  · intro st a b pa pb c hplay hab hps hpa hpb hcs hda hdb
    have hkeys : st.players.map Prod.fst = [a, b] := by rw [hps]; rfl
    have hpass : swordPass st = swordStepOne (swordStepOne st a) b := by
      rw [swordPass, hkeys]
      rfl
    have hga : alGet a st.players = some pa := by simp [hps, alGet]
    have hfa : st.chasers.find? (fun ch => decide (distSq pa.x pa.y ch.x ch.y < 6400))
        = some c := by
      rw [hcs]
      simp [List.find?, decide_eq_true hda]
    have h1 := swordStepOne_hit hga hpa hfa
    set st1 := swordStepOne st a with hst1
    have hchasers1 : st1.chasers = [] := by
      rw [h1, hcs]
      simp [List.erase_cons_head]
    have hgb1 : alGet b st1.players = some pb := by
      rw [h1]
      simp only []
      rw [alGet_alModify_ne (Ne.symm hab)]
      simp [hps, alGet, hab]
    have h2 : swordStepOne st1 b = st1 := by
      apply swordStepOne_miss hgb1 hpb
      rw [hchasers1]
      rfl
    rw [hpass, h2]
    refine ⟨hchasers1, ?_, hgb1, ?_, ?_⟩
    · rw [h1]
      simp only []
      rw [alGet_alModify_self]
      simp [hps, alGet]
    · rw [h1]
    · rw [h1]
      simp [alGet_alSet_self]

/-- Closed witness for `C1_sword_hit` at the two-attacker fixture
`stDouble`: one chaser removed, one +5/+5 award, respawn scheduled at
game time 7 + 2. -/
theorem C1_sword_hit_witness :
    (swordPass stDouble).chasers = []
    ∧ alGet 1 (swordPass stDouble).players
        = some { paF with score := paF.score + 5, sword_attacking := false }
    ∧ alGet 2 (swordPass stDouble).players = some pbF
    ∧ (swordPass stDouble).global_score = stDouble.global_score + 5
    ∧ alGet chF.id (swordPass stDouble).chaser_respawn_times
        = some (stDouble.game_time + chaser_respawn_delay)
    ∧ (swordStepOne stDouble 1).global_score = stDouble.global_score + 5 := by
  have h2 := C1_sword_hit.2 stDouble 1 2 paF pbF chF (by decide) (by decide) (by decide)
    (by decide) (by decide) (by decide) (by with_unfolding_all decide)
    (by with_unfolding_all decide)
  have h1 := C1_sword_hit.1 stDouble 1 paF (by decide) (by decide) (by decide)
    ⟨chF, by decide, by with_unfolding_all decide⟩
  obtain ⟨c, _, _, _, _, _, hg⟩ := h1
  exact ⟨h2.1, h2.2.1, h2.2.2.1, h2.2.2.2.1, h2.2.2.2.2, hg⟩

/-- C2: a 1-health player hit by a bullet while not immune and outside
the 1-second wall-clock cooldown is processed by the collision pass as a
death: exactly one `player_respawned` event is emitted and the player
stays in the players map, back at (400,300) with health restored to 6. -/
theorem C2_death_respawn :
    ∀ now st pid p, alGet pid st.players = some p →
      p.health = 1 → p.immunity_boost_active = false →
      now - (alGet pid st.player_damage_cooldowns).getD 0 ≥ damage_cooldown_duration →
      (∃ b ∈ st.bullets, distSq p.x p.y b.x b.y < 400) →
      alGet pid (bulletStepOne now (st, []) pid).1.players
          = some { p with x := 400, y := 300, health := 6 }
        ∧ (bulletStepOne now (st, []) pid).2 = [Event.player_respawned pid] := by
  intro now st pid p hp hh himm hcool hex
  have hex' : ∃ x ∈ st.bullets,
      (fun b => decide (distSq p.x p.y b.x b.y < 400)) x = true := by
    obtain ⟨b, hb, hd⟩ := hex
    exact ⟨b, hb, by simpa using hd⟩
  obtain ⟨b, hfind⟩ := find?_some_of_exists hex'
  have hdead : p.health - 1 ≤ 0 := by
    rw [hh]
    norm_num
  rw [bulletStepOne_damage_death hp himm hcool hfind hdead]
  exact ⟨alGet_alSet_self _ _ _, rfl⟩

/-- Closed witness for `C2_death_respawn`: the 1-health player of
`stLowHealth` hit at wall-clock time 100. -/
theorem C2_death_respawn_witness :
    alGet 1 (bulletStepOne 100 (stLowHealth, []) 1).1.players
        = some { pLow with x := 400, y := 300, health := 6 }
      ∧ (bulletStepOne 100 (stLowHealth, []) 1).2 = [Event.player_respawned 1] :=
  C2_death_respawn 100 stLowHealth 1 pLow (by decide) (by decide) (by decide)
    (by with_unfolding_all decide)
    ⟨{ x := 405, y := 300, dx := 0, dy := 0 }, by decide, by with_unfolding_all decide⟩

/-- C3 counterexample: in `stTwoBullets` both bullets are within radius
20 of player 1, yet after the bullet pass the second bullet is still in
the list, because the per-player scan removes one bullet and breaks. -/
theorem C3_counterexample : ¬ ClaimC3 := by
  intro h
  exact h 100 stTwoBullets 1 pImmune { x := 401, y := 300, dx := 0, dy := 0 }
    (by decide) (by decide) (by with_unfolding_all decide)
    (by with_unfolding_all decide)

/-- C3 amended: during a collision pass each player consumes at most
one bullet, namely the first bullet in list order within radius 20, and
that bullet is removed regardless of whether damage was applied: with
immunity active or inside the damage cooldown the player record is
untouched, no event is emitted, and the bullet is still destroyed. -/
theorem C3_bullet_consumption :
    (∀ now st evs pid p b, alGet pid st.players = some p →
      st.bullets.find? (fun bb => decide (distSq p.x p.y bb.x bb.y < 400)) = some b →
      (bulletStepOne now (st, evs) pid).1.bullets = st.bullets.erase b)
    ∧ (∀ now st evs pid p b, alGet pid st.players = some p →
        st.bullets.find? (fun bb => decide (distSq p.x p.y bb.x bb.y < 400)) = some b →
        (p.immunity_boost_active = true
          ∨ ¬(now - (alGet pid st.player_damage_cooldowns).getD 0
                ≥ damage_cooldown_duration)) →
        (bulletStepOne now (st, evs) pid).1.players = st.players
        ∧ (bulletStepOne now (st, evs) pid).2 = evs) := by
  constructor
  · intro now st evs pid p b hp hfind
    by_cases himm : p.immunity_boost_active = true
    · rw [bulletStepOne_immune hp himm hfind]
    · have himm' : p.immunity_boost_active = false := by
        simpa using himm
      by_cases hcool : now - (alGet pid st.player_damage_cooldowns).getD 0
          ≥ damage_cooldown_duration
      · by_cases hdead : p.health - 1 ≤ 0
        · rw [bulletStepOne_damage_death hp himm' hcool hfind hdead]
        · rw [bulletStepOne_damage_alive hp himm' hcool hfind hdead]
      · rw [bulletStepOne_cooldown hp himm' hcool hfind]
  · intro now st evs pid p b hp hfind hblock
    rcases hblock with himm | hcool
    · rw [bulletStepOne_immune hp himm hfind]
      exact ⟨rfl, rfl⟩
    · rcases Bool.eq_false_or_eq_true p.immunity_boost_active with ht | hf
      · rw [bulletStepOne_immune hp ht hfind]
        exact ⟨rfl, rfl⟩
      · rw [bulletStepOne_cooldown hp hf hcool hfind]
        exact ⟨rfl, rfl⟩

/-- Closed witness for `C3_bullet_consumption` at `stTwoBullets`: the
immune player consumes exactly the first bullet, is left unchanged, and
no event is emitted. -/
theorem C3_bullet_consumption_witness :
    (bulletStepOne 100 (stTwoBullets, []) 1).1.bullets
        = stTwoBullets.bullets.erase { x := 400, y := 300, dx := 0, dy := 0 }
    ∧ (bulletStepOne 100 (stTwoBullets, []) 1).1.players = stTwoBullets.players
    ∧ (bulletStepOne 100 (stTwoBullets, []) 1).2 = [] := by
  have h1 := C3_bullet_consumption.1 100 stTwoBullets [] 1 pImmune
    { x := 400, y := 300, dx := 0, dy := 0 } (by decide) (by with_unfolding_all decide)
  have h2 := C3_bullet_consumption.2 100 stTwoBullets [] 1 pImmune
    { x := 400, y := 300, dx := 0, dy := 0 } (by decide) (by with_unfolding_all decide)
    (Or.inl (by decide))
  exact ⟨h1, h2.1, h2.2⟩

/-! ## Broadcast lemmas (C7) -/

theorem broadcastStep_eq (f : ℕ → Bool) (acc : List ℕ × List ℕ) (kv : ℕ × ClientInfo) :
    broadcastStep f acc kv = if f kv.1 then acc else (acc.1 ++ [kv.1], acc.2) := by
  cases hf : f kv.1 <;> simp [broadcastStep, send_to_client, hf]

theorem broadcastAcc_spec (f : ℕ → Bool) (snapshot : List (ℕ × ClientInfo)) :
    broadcastAcc f snapshot
      = ((snapshot.filter fun kv => !f kv.1).map Prod.fst, []) := by
  suffices h : ∀ (l : List (ℕ × ClientInfo)) (acc : List ℕ × List ℕ),
      l.foldl (broadcastStep f) acc
        = (acc.1 ++ (l.filter fun kv => !f kv.1).map Prod.fst, acc.2) by
    have := h snapshot ([], [])
    simpa [broadcastAcc] using this
  intro l
  induction l with
  | nil => intro acc; simp
  | cons kv rest ih =>
    intro acc
    rw [List.foldl_cons, broadcastStep_eq]
    cases hf : f kv.1 <;> simp [hf, ih, List.filter_cons]

/-- C7: the first half of the claim holds (an error sending to one
session does not prevent delivery to the others: every client whose
send does not raise is in the delivered list), but the second half is
contradicted by the code: `send_to_client` swallows every exception
(src/server.py lines 766-772), so `disconnected_clients` in
`broadcast_to_all` stays empty and a session whose send raised is never
torn down: the state after a broadcast pass is always unchanged.  The
concrete parts evaluate `stTwo` with the send to client 1 raising:
client 2 still receives the message, and client 1 is still registered
afterwards. -/
theorem C7_broadcast_no_teardown :
    (∀ f st, (broadcast_to_all f st).1 = st)
    ∧ (∀ f st, (broadcast_to_all f st).2
        = (st.clients.filter fun kv => !f kv.1).map Prod.fst)
    ∧ (broadcast_to_all (fun c => c == 1) stTwo).2 = [2]
    ∧ alGet 1 (broadcast_to_all (fun c => c == 1) stTwo).1.clients
        = some { connected := true, last_heartbeat := 0 }
    ∧ alGet 1 (broadcast_to_all (fun c => c == 1) stTwo).1.players
        = some (defaultPlayer 1) := by
  have h1 : ∀ f st, (broadcast_to_all f st).1 = st := by
    intro f st
    show ((broadcastAcc f st.clients).2.foldl (fun s cid => (disconnect_client cid s).1) st)
      = st
    rw [broadcastAcc_spec]
    rfl
  have h2 : ∀ f st, (broadcast_to_all f st).2
      = (st.clients.filter fun kv => !f kv.1).map Prod.fst := by
    intro f st
    show (broadcastAcc f st.clients).1 = _
    rw [broadcastAcc_spec]
  refine ⟨h1, h2, by decide, ?_, ?_⟩
  · rw [h1]
    decide
  · rw [h1]
    decide

/-- C9: evidence that `info_request` crashes the connection instead of
answering.  The `info_request` branch of `process_client_message`
references the undefined name `client_socket` (src/server.py line 337),
so processing raises for every state and every sender; the generic
handler in `handle_client` then tears the connection down, removing the
session and its player, and no `server_info` message is ever sent. -/
theorem C9_info_request_crashes :
    (∀ env cid st, process_client_message env cid infoMsg st = Except.error ())
    ∧ handleLine env0 1 (RawLine.valid infoMsg) stOne = (disconnect_client 1 stOne).1
    ∧ alGet 1 (handleLine env0 1 (RawLine.valid infoMsg) stOne).clients = none
    ∧ alGet 1 (handleLine env0 1 (RawLine.valid infoMsg) stOne).players = none := by
  refine ⟨fun env cid st => rfl, rfl, by decide, by decide⟩

/-- C8 counterexample: a decoded message that is not a JSON object (here
the JSON string "hi") raises `AttributeError` in
`process_client_message`; the generic handler in `handle_client` then
disconnects the client instead of silently ignoring the message, so the
state does not stay intact. -/
theorem C8_counterexample : ¬ ClaimC8 := by
  intro h
  have heq := h.1 env0 1 stOne (Json.str "hi")
    (Or.inl fun kvs hh => Json.noConfusion hh)
  have hne : handleLine env0 1 (RawLine.valid (Json.str "hi")) stOne ≠ stOne := by
    decide
  exact hne heq

/-- C8 amended: a decoded object message with an unknown `type` is
silently ignored with the state unchanged, and an unparseable raw line
is dropped with the state unchanged; but a decoded message that is not
an object, or a `player_update` whose `data` is present and not an
object, raises inside the processor and the connection is torn down via
the normal disconnect path (session and player removed). -/
theorem C8_message_handling :
    (∀ env cid st kvs, (∀ t, jgetStr (Json.obj kvs) "type" = some t → t ∉ knownMsgTypes) →
      handleLine env cid (RawLine.valid (Json.obj kvs)) st = st)
    ∧ (∀ env cid st s, handleLine env cid (RawLine.invalid s) st = st)
    ∧ (∀ env cid st m, (∀ kvs, m ≠ Json.obj kvs) →
        handleLine env cid (RawLine.valid m) st = (disconnect_client cid st).1)
    ∧ (∀ env cid st m d, jgetStr m "type" = some "player_update" →
        (alGet cid st.players).isSome = true → jget m "data" = some d →
        (∀ kvs, d ≠ Json.obj kvs) →
        handleLine env cid (RawLine.valid m) st = (disconnect_client cid st).1) := by
  refine ⟨?_, fun env cid st s => rfl, ?_, ?_⟩
  · intro env cid st kvs hunk
    cases ht : jgetStr (Json.obj kvs) "type" with
    | none => simp [handleLine, process_client_message, ht]
    | some s =>
      have hs : s ∉ knownMsgTypes := hunk s ht
      have h1 : s ≠ "player_update" := fun hh => hs (by simp [knownMsgTypes, hh])
      have h2 : s ≠ "player_action" := fun hh => hs (by simp [knownMsgTypes, hh])
      have h3 : s ≠ "heartbeat" := fun hh => hs (by simp [knownMsgTypes, hh])
      have h4 : s ≠ "start_game" := fun hh => hs (by simp [knownMsgTypes, hh])
      have h5 : s ≠ "set_difficulty" := fun hh => hs (by simp [knownMsgTypes, hh])
      have h6 : s ≠ "info_request" := fun hh => hs (by simp [knownMsgTypes, hh])
      simp [handleLine, process_client_message, ht, h1, h2, h3, h4, h5, h6]
  · intro env cid st m h
    cases m with
    | obj kvs => exact absurd rfl (h kvs)
    | null => rfl
    | bool b => rfl
    | num q => rfl
    | str s => rfl
    | arr xs => rfl
  · intro env cid st m d ht hsome hdata hnon
    cases m with
    | null => simp [jgetStr, jget] at ht
    | bool b => simp [jgetStr, jget] at ht
    | num q => simp [jgetStr, jget] at ht
    | str s => simp [jgetStr, jget] at ht
    | arr xs => simp [jgetStr, jget] at ht
    | obj kvs =>
      cases d with
      | obj fs => exact absurd rfl (hnon fs)
      | null => simp [handleLine, process_client_message, ht, hsome, hdata]
      | bool b => simp [handleLine, process_client_message, ht, hsome, hdata]
      | num q => simp [handleLine, process_client_message, ht, hsome, hdata]
      | str s => simp [handleLine, process_client_message, ht, hsome, hdata]
      | arr xs => simp [handleLine, process_client_message, ht, hsome, hdata]

/-- Closed witness for `C8_message_handling`: an unrecognised message
type leaves `stOne` untouched, while a `player_update` whose `data` is
the JSON string "x" tears session 1 down. -/
theorem C8_message_handling_witness :
    handleLine env0 1 (RawLine.valid (Json.obj [("type", Json.str "bogus")])) stOne = stOne
    ∧ handleLine env0 1 (RawLine.valid badDataMsg) stOne = (disconnect_client 1 stOne).1 := by
  constructor
  · apply C8_message_handling.1
    intro t ht
    simp [jgetStr, jget] at ht
    subst ht
    decide
  · exact C8_message_handling.2.2.2 env0 1 stOne badDataMsg (Json.str "x") rfl (by decide)
      rfl (fun kvs hh => Json.noConfusion hh)

/-! ## Generic fold helpers -/

theorem foldl_pres {σ α β : Type _} (f : σ → α → σ) (g : σ → β)
    (h : ∀ s x, g (f s x) = g s) : ∀ (l : List α) (s : σ), g (l.foldl f s) = g s := by
  intro l
  induction l with
  | nil => intro s; rfl
  | cons a rest ih =>
    intro s
    rw [List.foldl_cons, ih, h]

theorem foldl_rel {σ α : Type _} (f : σ → α → σ) (R : σ → σ → Prop)
    (hrefl : ∀ s, R s s) (htrans : ∀ a b c, R a b → R b c → R a c)
    (hstep : ∀ s x, R s (f s x)) : ∀ (l : List α) (s : σ), R s (l.foldl f s) := by
  intro l
  induction l with
  | nil => intro s; exact hrefl s
  | cons a rest ih =>
    intro s
    rw [List.foldl_cons]
    exact htrans _ _ _ (hstep s a) (ih (f s a))

theorem foldl_inv {σ α : Type _} (f : σ → α → σ) (P : σ → Prop)
    (h : ∀ s x, P s → P (f s x)) : ∀ (l : List α) (s : σ), P s → P (l.foldl f s) := by
  intro l
  induction l with
  | nil => intro s hs; exact hs
  | cons a rest ih =>
    intro s hs
    rw [List.foldl_cons]
    exact ih _ (h s a hs)

/-! ## Shape lemmas for the collision loop bodies -/

theorem swordStepOne_shape (st : ServerState) (pid : ℕ) :
    swordStepOne st pid = st
    ∨ ∃ p c, alGet pid st.players = some p ∧ p.sword_attacking = true
        ∧ st.chasers.find? (fun ch => decide (distSq p.x p.y ch.x ch.y < 6400)) = some c
        ∧ swordStepOne st pid
          = { st with
              chaser_respawn_times :=
                alSet c.id (st.game_time + chaser_respawn_delay) st.chaser_respawn_times,
              chasers := st.chasers.erase c,
              players := alModify pid
                (fun q => { q with score := q.score + 5, sword_attacking := false })
                st.players,
              global_score := st.global_score + 5 } := by
  cases hp : alGet pid st.players with
  | none => exact Or.inl (swordStepOne_absent hp)
  | some p =>
    cases hatk : p.sword_attacking with
    | false => exact Or.inl (swordStepOne_noflag hp hatk)
    | true =>
      cases hfind : st.chasers.find? (fun ch => decide (distSq p.x p.y ch.x ch.y < 6400)) with
      | none => exact Or.inl (swordStepOne_miss hp hatk hfind)
      | some c => exact Or.inr ⟨p, c, rfl, hatk, hfind, swordStepOne_hit hp hatk hfind⟩

theorem bulletStepOne_shape (now : ℚ) (acc : ServerState × List Event) (pid : ℕ) :
    bulletStepOne now acc pid = acc
    ∨ ∃ p b, alGet pid acc.1.players = some p
        ∧ acc.1.bullets.find? (fun bb => decide (distSq p.x p.y bb.x bb.y < 400)) = some b
        ∧ (bulletStepOne now acc pid = ({ acc.1 with bullets := acc.1.bullets.erase b }, acc.2)
          ∨ bulletStepOne now acc pid
              = ({ acc.1 with
                    players := alSet pid { p with health := p.health - 1 } acc.1.players,
                    player_damage_cooldowns := alSet pid now acc.1.player_damage_cooldowns,
                    bullets := acc.1.bullets.erase b }, acc.2)
          ∨ bulletStepOne now acc pid
              = ({ acc.1 with
                    players := alSet pid { p with x := 400, y := 300, health := 6 }
                      (alSet pid { p with health := p.health - 1 } acc.1.players),
                    player_damage_cooldowns := alSet pid now acc.1.player_damage_cooldowns,
                    bullets := acc.1.bullets.erase b },
                  acc.2 ++ [Event.player_respawned pid])) := by
  obtain ⟨st, evs⟩ := acc
  cases hp : alGet pid st.players with
  | none => exact Or.inl (bulletStepOne_absent hp)
  | some p =>
    cases hfind : st.bullets.find? (fun bb => decide (distSq p.x p.y bb.x bb.y < 400)) with
    | none => exact Or.inl (bulletStepOne_nobullet hp hfind)
    | some b =>
      refine Or.inr ⟨p, b, rfl, hfind, ?_⟩
      rcases Bool.eq_false_or_eq_true p.immunity_boost_active with himm | himm
      · exact Or.inl (bulletStepOne_immune hp himm hfind)
      · by_cases hcool : now - (alGet pid st.player_damage_cooldowns).getD 0
            ≥ damage_cooldown_duration
        · by_cases hdead : p.health - 1 ≤ 0
          · exact Or.inr (Or.inr (bulletStepOne_damage_death hp himm hcool hfind hdead))
          · exact Or.inr (Or.inl (bulletStepOne_damage_alive hp himm hcool hfind hdead))
        · exact Or.inl (bulletStepOne_cooldown hp himm hcool hfind)

theorem score_tick_fold_shape (gt : ℚ) (acc : List (ℕ × Player) × List (ℕ × ℚ)) (pid : ℕ) :
    (score_tick_fold gt acc pid).1 = acc.1
    ∨ (score_tick_fold gt acc pid).1
        = alModify pid (fun p => { p with score := p.score + 1 }) acc.1 := by
  simp only [score_tick_fold]
  split_ifs <;> simp

/-! ## Field preservation of the simulation sub-steps -/

theorem update_chasers_fields (env : Env) (st : ServerState) :
    (update_chasers env st).players = st.players
    ∧ (update_chasers env st).game_state = st.game_state
    ∧ (update_chasers env st).global_score = st.global_score
    ∧ (update_chasers env st).last_global_score_time = st.last_global_score_time
    ∧ (update_chasers env st).game_time = st.game_time
    ∧ (update_chasers env st).clients = st.clients
    ∧ (update_chasers env st).chaser_respawn_times = st.chaser_respawn_times := by
  unfold update_chasers
  split <;> exact ⟨rfl, rfl, rfl, rfl, rfl, rfl, rfl⟩

theorem spawn_bullets_fields (env : Env) (st : ServerState) :
    (spawn_bullets env st).players = st.players
    ∧ (spawn_bullets env st).game_state = st.game_state
    ∧ (spawn_bullets env st).global_score = st.global_score
    ∧ (spawn_bullets env st).last_global_score_time = st.last_global_score_time
    ∧ (spawn_bullets env st).game_time = st.game_time
    ∧ (spawn_bullets env st).clients = st.clients
    ∧ (spawn_bullets env st).chaser_respawn_times = st.chaser_respawn_times := by
  simp only [spawn_bullets]
  split <;> exact ⟨rfl, rfl, rfl, rfl, rfl, rfl, rfl⟩

theorem update_bullets_fields (st : ServerState) :
    (update_bullets st).players = st.players
    ∧ (update_bullets st).game_state = st.game_state
    ∧ (update_bullets st).global_score = st.global_score
    ∧ (update_bullets st).last_global_score_time = st.last_global_score_time
    ∧ (update_bullets st).game_time = st.game_time
    ∧ (update_bullets st).clients = st.clients
    ∧ (update_bullets st).chaser_respawn_times = st.chaser_respawn_times :=
  ⟨rfl, rfl, rfl, rfl, rfl, rfl, rfl⟩

theorem spawn_powerups_fields (env : Env) (st : ServerState) :
    (spawn_powerups env st).players = st.players
    ∧ (spawn_powerups env st).game_state = st.game_state
    ∧ (spawn_powerups env st).global_score = st.global_score
    ∧ (spawn_powerups env st).last_global_score_time = st.last_global_score_time
    ∧ (spawn_powerups env st).game_time = st.game_time
    ∧ (spawn_powerups env st).clients = st.clients :=
  ⟨rfl, rfl, rfl, rfl, rfl, rfl⟩

theorem update_chaser_respawns_fields (env : Env) (st : ServerState) :
    (update_chaser_respawns env st).players = st.players
    ∧ (update_chaser_respawns env st).game_state = st.game_state
    ∧ (update_chaser_respawns env st).global_score = st.global_score
    ∧ (update_chaser_respawns env st).last_global_score_time = st.last_global_score_time
    ∧ (update_chaser_respawns env st).game_time = st.game_time
    ∧ (update_chaser_respawns env st).clients = st.clients :=
  ⟨rfl, rfl, rfl, rfl, rfl, rfl⟩

theorem players_score_tick_fields (st : ServerState) :
    (players_score_tick st).game_state = st.game_state
    ∧ (players_score_tick st).global_score = st.global_score
    ∧ (players_score_tick st).last_global_score_time = st.last_global_score_time
    ∧ (players_score_tick st).game_time = st.game_time
    ∧ (players_score_tick st).clients = st.clients
    ∧ (players_score_tick st).chasers = st.chasers :=
  ⟨rfl, rfl, rfl, rfl, rfl, rfl⟩

theorem global_score_tick_fields (st : ServerState) :
    (global_score_tick st).players = st.players
    ∧ (global_score_tick st).game_state = st.game_state
    ∧ (global_score_tick st).game_time = st.game_time
    ∧ (global_score_tick st).clients = st.clients := by
  unfold global_score_tick
  split <;> exact ⟨rfl, rfl, rfl, rfl⟩

theorem global_score_tick_le (st : ServerState) :
    st.global_score ≤ (global_score_tick st).global_score := by
  unfold global_score_tick
  split
  · show st.global_score ≤ st.global_score + 1
    linarith
  · exact le_refl _

theorem disconnect_fields (cid : ℕ) (st : ServerState) :
    (disconnect_client cid st).1.game_state = st.game_state
    ∧ (disconnect_client cid st).1.global_score = st.global_score
    ∧ (disconnect_client cid st).1.last_global_score_time = st.last_global_score_time
    ∧ (disconnect_client cid st).1.game_time = st.game_time :=
  ⟨rfl, rfl, rfl, rfl⟩

theorem foldDisconnect_fields (l : List ℕ) (st : ServerState) :
    (l.foldl (fun s cid => (disconnect_client cid s).1) st).game_state = st.game_state
    ∧ (l.foldl (fun s cid => (disconnect_client cid s).1) st).global_score = st.global_score
    ∧ (l.foldl (fun s cid => (disconnect_client cid s).1) st).last_global_score_time
        = st.last_global_score_time
    ∧ (l.foldl (fun s cid => (disconnect_client cid s).1) st).game_time = st.game_time :=
  ⟨foldl_pres (fun s cid => (disconnect_client cid s).1) (fun s => s.game_state)
      (fun _ _ => rfl) l st,
   foldl_pres (fun s cid => (disconnect_client cid s).1) (fun s => s.global_score)
      (fun _ _ => rfl) l st,
   foldl_pres (fun s cid => (disconnect_client cid s).1) (fun s => s.last_global_score_time)
      (fun _ _ => rfl) l st,
   foldl_pres (fun s cid => (disconnect_client cid s).1) (fun s => s.game_time)
      (fun _ _ => rfl) l st⟩

theorem check_client_timeouts_fields (now : ℚ) (st : ServerState) :
    (check_client_timeouts now st).game_state = st.game_state
    ∧ (check_client_timeouts now st).global_score = st.global_score
    ∧ (check_client_timeouts now st).last_global_score_time = st.last_global_score_time
    ∧ (check_client_timeouts now st).game_time = st.game_time :=
  foldDisconnect_fields _ st

/-! ## Key and value preservation through the collision folds -/

theorem bulletStepOne_keys (now : ℚ) (acc : ServerState × List Event) (pid : ℕ) :
    (bulletStepOne now acc pid).1.players.map Prod.fst = acc.1.players.map Prod.fst := by
  rcases bulletStepOne_shape now acc pid with h | ⟨p, b, hp, hfind, h | h | h⟩ <;> rw [h]
  · have hm : pid ∈ acc.1.players.map Prod.fst := alGet_mem_keys hp
    simp only []
    rw [alSet_keys_of_mem _ hm]
  · have hm : pid ∈ acc.1.players.map Prod.fst := alGet_mem_keys hp
    have h1 : (alSet pid { p with health := p.health - 1 } acc.1.players).map Prod.fst
        = acc.1.players.map Prod.fst := alSet_keys_of_mem _ hm
    simp only []
    rw [alSet_keys_of_mem _ (h1 ▸ hm), h1]

theorem bulletStepOne_fixed (now : ℚ) (acc : ServerState × List Event) (pid : ℕ) :
    (bulletStepOne now acc pid).1.game_state = acc.1.game_state
    ∧ (bulletStepOne now acc pid).1.global_score = acc.1.global_score
    ∧ (bulletStepOne now acc pid).1.last_global_score_time = acc.1.last_global_score_time
    ∧ (bulletStepOne now acc pid).1.chasers = acc.1.chasers
    ∧ (bulletStepOne now acc pid).1.game_time = acc.1.game_time
    ∧ (bulletStepOne now acc pid).1.chaser_respawn_times = acc.1.chaser_respawn_times
    ∧ (bulletStepOne now acc pid).1.clients = acc.1.clients := by
  rcases bulletStepOne_shape now acc pid with h | ⟨p, b, hp, hfind, h | h | h⟩ <;> rw [h] <;>
    exact ⟨rfl, rfl, rfl, rfl, rfl, rfl, rfl⟩

theorem bulletPass_fixed (now : ℚ) (st : ServerState) :
    (bulletPass now st).1.game_state = st.game_state
    ∧ (bulletPass now st).1.global_score = st.global_score
    ∧ (bulletPass now st).1.last_global_score_time = st.last_global_score_time
    ∧ (bulletPass now st).1.chasers = st.chasers
    ∧ (bulletPass now st).1.game_time = st.game_time
    ∧ (bulletPass now st).1.chaser_respawn_times = st.chaser_respawn_times
    ∧ (bulletPass now st).1.clients = st.clients
    ∧ (bulletPass now st).1.players.map Prod.fst = st.players.map Prod.fst := by
  refine ⟨?_, ?_, ?_, ?_, ?_, ?_, ?_, ?_⟩ <;>
  · first
    | exact foldl_pres (bulletStepOne now) (fun acc => acc.1.game_state)
        (fun s x => (bulletStepOne_fixed now s x).1) _ _
    | exact foldl_pres (bulletStepOne now) (fun acc => acc.1.global_score)
        (fun s x => (bulletStepOne_fixed now s x).2.1) _ _
    | exact foldl_pres (bulletStepOne now) (fun acc => acc.1.last_global_score_time)
        (fun s x => (bulletStepOne_fixed now s x).2.2.1) _ _
    | exact foldl_pres (bulletStepOne now) (fun acc => acc.1.chasers)
        (fun s x => (bulletStepOne_fixed now s x).2.2.2.1) _ _
    | exact foldl_pres (bulletStepOne now) (fun acc => acc.1.game_time)
        (fun s x => (bulletStepOne_fixed now s x).2.2.2.2.1) _ _
    | exact foldl_pres (bulletStepOne now) (fun acc => acc.1.chaser_respawn_times)
        (fun s x => (bulletStepOne_fixed now s x).2.2.2.2.2.1) _ _
    | exact foldl_pres (bulletStepOne now) (fun acc => acc.1.clients)
        (fun s x => (bulletStepOne_fixed now s x).2.2.2.2.2.2) _ _
    | exact foldl_pres (bulletStepOne now) (fun acc => acc.1.players.map Prod.fst)
        (fun s x => bulletStepOne_keys now s x) _ _

theorem swordStepOne_fixed (st : ServerState) (pid : ℕ) :
    (swordStepOne st pid).game_state = st.game_state
    ∧ (swordStepOne st pid).last_global_score_time = st.last_global_score_time
    ∧ (swordStepOne st pid).game_time = st.game_time
    ∧ (swordStepOne st pid).clients = st.clients
    ∧ (swordStepOne st pid).players.map Prod.fst = st.players.map Prod.fst
    ∧ (swordStepOne st pid).bullets = st.bullets := by
  rcases swordStepOne_shape st pid with h | ⟨p, c, hp, hatk, hfind, h⟩ <;> rw [h]
  · exact ⟨rfl, rfl, rfl, rfl, rfl, rfl⟩
  · exact ⟨rfl, rfl, rfl, rfl, alModify_keys _ _ _, rfl⟩

theorem swordStepOne_global_le (st : ServerState) (pid : ℕ) :
    st.global_score ≤ (swordStepOne st pid).global_score := by
  rcases swordStepOne_shape st pid with h | ⟨p, c, hp, hatk, hfind, h⟩
  · rw [h]
  · rw [h]
    show st.global_score ≤ st.global_score + 5
    linarith

theorem swordPass_fixed (st : ServerState) :
    (swordPass st).game_state = st.game_state
    ∧ (swordPass st).last_global_score_time = st.last_global_score_time
    ∧ (swordPass st).game_time = st.game_time
    ∧ (swordPass st).clients = st.clients
    ∧ (swordPass st).players.map Prod.fst = st.players.map Prod.fst := by
  refine ⟨?_, ?_, ?_, ?_, ?_⟩ <;>
  · first
    | exact foldl_pres swordStepOne (fun s => s.game_state)
        (fun s x => (swordStepOne_fixed s x).1) _ _
    | exact foldl_pres swordStepOne (fun s => s.last_global_score_time)
        (fun s x => (swordStepOne_fixed s x).2.1) _ _
    | exact foldl_pres swordStepOne (fun s => s.game_time)
        (fun s x => (swordStepOne_fixed s x).2.2.1) _ _
    | exact foldl_pres swordStepOne (fun s => s.clients)
        (fun s x => (swordStepOne_fixed s x).2.2.2.1) _ _
    | exact foldl_pres swordStepOne (fun s => s.players.map Prod.fst)
        (fun s x => (swordStepOne_fixed s x).2.2.2.2.1) _ _

theorem swordPass_global_le (st : ServerState) :
    st.global_score ≤ (swordPass st).global_score :=
  foldl_rel swordStepOne (fun a b => a.global_score ≤ b.global_score)
    (fun s => le_refl s.global_score) (fun _ _ _ h1 h2 => le_trans h1 h2)
    (fun s x => swordStepOne_global_le s x) _ _

/-! ## Value preservation through the collision folds -/

theorem alGet_eq_of_eq {l : List (ℕ × α)} {p q : α}
    (h1 : alGet pid l = some p) (h2 : alGet pid l = some q) : p = q := by
  rw [h1] at h2
  exact Option.some.inj h2

theorem bulletStepOne_score_flag (now : ℚ) (acc : ServerState × List Event) (i : ℕ)
    {pid : ℕ} {p : Player} (hp : alGet pid acc.1.players = some p) :
    ∃ p', alGet pid (bulletStepOne now acc i).1.players = some p'
      ∧ p'.score = p.score ∧ p'.sword_attacking = p.sword_attacking := by
  rcases bulletStepOne_shape now acc i with h | ⟨p0, b, hp0, hfind, h | h | h⟩ <;> rw [h]
  · exact ⟨p, hp, rfl, rfl⟩
  · exact ⟨p, hp, rfl, rfl⟩
  · by_cases hpi : pid = i
    · subst hpi
      have he : p = p0 := alGet_eq_of_eq hp hp0
      subst he
      refine ⟨{ p with health := p.health - 1 }, ?_, rfl, rfl⟩
      simp only []
      rw [alGet_alSet_self]
    · exact ⟨p, by simp only []; rw [alGet_alSet_ne hpi]; exact hp, rfl, rfl⟩
  · by_cases hpi : pid = i
    · subst hpi
      have he : p = p0 := alGet_eq_of_eq hp hp0
      subst he
      refine ⟨{ p with x := 400, y := 300, health := 6 }, ?_, rfl, rfl⟩
      simp only []
      rw [alGet_alSet_self]
    · exact ⟨p, by simp only []; rw [alGet_alSet_ne hpi, alGet_alSet_ne hpi]; exact hp,
        rfl, rfl⟩

theorem bulletPass_score_flag (now : ℚ) (st : ServerState)
    {pid : ℕ} {p : Player} (hp : alGet pid st.players = some p) :
    ∃ p', alGet pid (bulletPass now st).1.players = some p'
      ∧ p'.score = p.score ∧ p'.sword_attacking = p.sword_attacking := by
  have key := foldl_inv (bulletStepOne now)
    (fun acc => ∃ p', alGet pid acc.1.players = some p'
      ∧ p'.score = p.score ∧ p'.sword_attacking = p.sword_attacking)
    (fun acc i ih => by
      obtain ⟨q, hq, hs, hf⟩ := ih
      obtain ⟨q', hq', hs', hf'⟩ := bulletStepOne_score_flag now acc i hq
      exact ⟨q', hq', hs'.trans hs, hf'.trans hf⟩)
    (st.players.map Prod.fst) (st, []) ⟨p, hp, rfl, rfl⟩
  exact key

theorem swordStepOne_score_le (st : ServerState) (i : ℕ)
    {pid : ℕ} {p : Player} (hp : alGet pid st.players = some p) :
    ∃ p', alGet pid (swordStepOne st i).players = some p' ∧ p.score ≤ p'.score := by
  rcases swordStepOne_shape st i with h | ⟨p0, c, hp0, hatk, hfind, h⟩ <;> rw [h]
  · exact ⟨p, hp, le_refl _⟩
  · by_cases hpi : pid = i
    · subst hpi
      refine ⟨_, by simp only []; rw [alGet_alModify_self, hp]; rfl, ?_⟩
      show p.score ≤ p.score + 5
      linarith
    · exact ⟨p, by simp only []; rw [alGet_alModify_ne hpi]; exact hp, le_refl _⟩

theorem swordPass_score_le (st : ServerState)
    {pid : ℕ} {p : Player} (hp : alGet pid st.players = some p) :
    ∃ p', alGet pid (swordPass st).players = some p' ∧ p.score ≤ p'.score := by
  have key := foldl_inv swordStepOne
    (fun s => ∃ q, alGet pid s.players = some q ∧ p.score ≤ q.score)
    (fun s i ih => by
      obtain ⟨q, hq, hs⟩ := ih
      obtain ⟨q', hq', hs'⟩ := swordStepOne_score_le s i hq
      exact ⟨q', hq', hs.trans hs'⟩)
    (st.players.map Prod.fst) st ⟨p, hp, le_refl _⟩
  exact key

theorem players_score_tick_score (st : ServerState)
    {pid : ℕ} {p : Player} (hp : alGet pid st.players = some p) :
    ∃ p', alGet pid (players_score_tick st).players = some p'
      ∧ p.score ≤ p'.score ∧ p'.sword_attacking = p.sword_attacking := by
  have key := foldl_inv (score_tick_fold st.game_time)
    (fun acc => ∃ q, alGet pid acc.1 = some q
      ∧ p.score ≤ q.score ∧ q.sword_attacking = p.sword_attacking)
    (fun acc i ih => by
      obtain ⟨q, hq, hs, hf⟩ := ih
      rcases score_tick_fold_shape st.game_time acc i with h | h <;> rw [h]
      · exact ⟨q, hq, hs, hf⟩
      · by_cases hpi : pid = i
        · subst hpi
          refine ⟨{ q with score := q.score + 1 }, ?_, ?_, hf⟩
          · rw [alGet_alModify_self, hq]
            rfl
          · show p.score ≤ q.score + 1
            linarith
        · exact ⟨q, by rw [alGet_alModify_ne hpi]; exact hq, hs, hf⟩)
    (st.players.map Prod.fst) (st.players, st.player_score_times) ⟨p, hp, le_refl _, rfl⟩
  exact key

/-! ## Erase and nodup lemmas for disconnects -/

theorem alErase_keys_sublist (k : ℕ) (l : List (ℕ × α)) :
    List.Sublist ((alErase k l).map Prod.fst) (l.map Prod.fst) := by
  induction l with
  | nil => simp [alErase]
  | cons kv rest ih =>
    simp only [alErase]
    split_ifs with hk
    · simp only [List.map_cons]
      exact (List.Sublist.refl _).cons _
    · simp only [List.map_cons]
      exact ih.cons₂ _

theorem alGet_alErase_some {k pid : ℕ} {l : List (ℕ × α)} {q : α}
    (hnd : (l.map Prod.fst).Nodup)
    (h : alGet pid (alErase k l) = some q) : alGet pid l = some q := by
  induction l with
  | nil => simpa [alErase] using h
  | cons kv rest ih =>
    have hnd' : (rest.map Prod.fst).Nodup := (List.nodup_cons.mp hnd).2
    have hhead : kv.1 ∉ rest.map Prod.fst := (List.nodup_cons.mp hnd).1
    simp only [alErase] at h
    split_ifs at h with hk
    · subst hk
      by_cases hpid : kv.1 = pid
      · subst hpid
        exact absurd (alGet_mem_keys h) hhead
      · simp [alGet, hpid, h]
    · simp only [alGet] at h ⊢
      split_ifs at h ⊢ with hkv
      · exact h
      · exact ih hnd' h

theorem alErase_nodup {k : ℕ} {l : List (ℕ × α)} (hnd : (l.map Prod.fst).Nodup) :
    ((alErase k l).map Prod.fst).Nodup :=
  (alErase_keys_sublist k l).nodup hnd

theorem foldDisconnect_players_get :
    ∀ (l : List ℕ) (st : ServerState) {pid : ℕ} {q : Player},
      (st.players.map Prod.fst).Nodup →
      alGet pid (l.foldl (fun s cid => (disconnect_client cid s).1) st).players = some q →
      alGet pid st.players = some q := by
  intro l
  induction l with
  | nil => intro st pid q _ h; exact h
  | cons a rest ih =>
    intro st pid q hnd h
    rw [List.foldl_cons] at h
    have h1 := ih (disconnect_client a st).1 (alErase_nodup hnd) h
    exact alGet_alErase_some hnd h1

theorem alGet_isSome_of_mem_keys {pid : ℕ} {l : List (ℕ × α)}
    (h : pid ∈ l.map Prod.fst) : (alGet pid l).isSome := by
  induction l with
  | nil => simp at h
  | cons kv rest ih =>
    by_cases hk : kv.1 = pid
    · simp [alGet, hk]
    · rcases List.mem_map.mp h with ⟨x, hx, hfst⟩
      rcases List.mem_cons.mp hx with h0 | h0
      · exact absurd (h0 ▸ hfst) hk
      · simp only [alGet, hk, if_false]
        exact ih (List.mem_map.mpr ⟨x, h0, hfst⟩)

theorem players_score_tick_keys (st : ServerState) :
    (players_score_tick st).players.map Prod.fst = st.players.map Prod.fst := by
  show ((st.players.map Prod.fst).foldl (score_tick_fold st.game_time)
      (st.players, st.player_score_times)).1.map Prod.fst = st.players.map Prod.fst
  refine foldl_pres (score_tick_fold st.game_time) (fun acc => acc.1.map Prod.fst) ?_ _ _
  intro acc i
  show (score_tick_fold st.game_time acc i).1.map Prod.fst = acc.1.map Prod.fst
  rcases score_tick_fold_shape st.game_time acc i with h | h
  · rw [h]
  · rw [h, alModify_keys]

/-! ## Aggregate lemmas for one PLAYING tick -/

theorem check_collisions_fst (now : ℚ) (st : ServerState) :
    (check_collisions now st).1 = swordPass (bulletPass now st).1 := rfl

theorem update_game_state_fields (env : Env) (st : ServerState) :
    (update_game_state env st).game_state = st.game_state
    ∧ (update_game_state env st).clients = st.clients := by
  unfold update_game_state
  rw [check_collisions_fst]
  constructor
  · rw [(global_score_tick_fields _).2.1, (players_score_tick_fields _).1,
      (update_chaser_respawns_fields _ _).2.1, (spawn_powerups_fields _ _).2.1,
      (swordPass_fixed _).1, (bulletPass_fixed _ _).1, (update_bullets_fields _).2.1,
      (spawn_bullets_fields _ _).2.1, (update_chasers_fields _ _).2.1]
  · rw [(global_score_tick_fields _).2.2.2, (players_score_tick_fields _).2.2.2.2.1,
      (update_chaser_respawns_fields _ _).2.2.2.2.2, (spawn_powerups_fields _ _).2.2.2.2.2,
      (swordPass_fixed _).2.2.2.1, (bulletPass_fixed _ _).2.2.2.2.2.2.1,
      (update_bullets_fields _).2.2.2.2.2.1, (spawn_bullets_fields _ _).2.2.2.2.2.1,
      (update_chasers_fields _ _).2.2.2.2.2.1]

theorem update_game_state_global_le (env : Env) (st : ServerState) :
    st.global_score ≤ (update_game_state env st).global_score := by
  unfold update_game_state
  have h1 : (update_bullets (spawn_bullets env (update_chasers env st))).global_score
      = st.global_score := by
    rw [(update_bullets_fields _).2.2.1, (spawn_bullets_fields _ _).2.2.1,
      (update_chasers_fields _ _).2.2.1]
  have h2 : ((check_collisions env.now
      (update_bullets (spawn_bullets env (update_chasers env st)))).1).global_score
      ≥ st.global_score := by
    show (swordPass (bulletPass env.now _).1).global_score ≥ _
    calc st.global_score
        = (bulletPass env.now (update_bullets (spawn_bullets env
            (update_chasers env st)))).1.global_score := by
          rw [(bulletPass_fixed _ _).2.1, h1]
      _ ≤ _ := swordPass_global_le _
  calc st.global_score
      ≤ ((check_collisions env.now (update_bullets (spawn_bullets env
          (update_chasers env st)))).1).global_score := h2
    _ = (players_score_tick (update_chaser_respawns env (spawn_powerups env
          ((check_collisions env.now (update_bullets (spawn_bullets env
            (update_chasers env st)))).1)))).global_score := by
        rw [(players_score_tick_fields _).2.1, (update_chaser_respawns_fields _ _).2.2.1,
          (spawn_powerups_fields _ _).2.2.1]
    _ ≤ _ := global_score_tick_le _

theorem update_game_state_keys (env : Env) (st : ServerState) :
    (update_game_state env st).players.map Prod.fst = st.players.map Prod.fst := by
  unfold update_game_state
  rw [(global_score_tick_fields _).1, players_score_tick_keys,
    (update_chaser_respawns_fields _ _).1, (spawn_powerups_fields _ _).1]
  show (swordPass (bulletPass env.now _).1).players.map Prod.fst = _
  rw [(swordPass_fixed _).2.2.2.2, (bulletPass_fixed _ _).2.2.2.2.2.2.2,
    (update_bullets_fields _).1, (spawn_bullets_fields _ _).1,
    (update_chasers_fields _ _).1]

theorem update_game_state_score (env : Env) (st : ServerState)
    {pid : ℕ} {p : Player} (hp : alGet pid st.players = some p) :
    ∃ p', alGet pid (update_game_state env st).players = some p' ∧ p.score ≤ p'.score := by
  unfold update_game_state
  have hp3 : alGet pid (update_bullets (spawn_bullets env (update_chasers env st))).players
      = some p := by
    rw [(update_bullets_fields _).1, (spawn_bullets_fields _ _).1,
      (update_chasers_fields _ _).1]
    exact hp
  obtain ⟨q1, hq1, hs1, _⟩ := bulletPass_score_flag env.now _ hp3
  obtain ⟨q2, hq2, hs2⟩ := swordPass_score_le _ hq1
  have hq2' : alGet pid (players_score_tick (update_chaser_respawns env (spawn_powerups env
      (swordPass (bulletPass env.now (update_bullets (spawn_bullets env
        (update_chasers env st)))).1)))).players = some q2 → True := fun _ => trivial
  have hmid : alGet pid (update_chaser_respawns env (spawn_powerups env
      (swordPass (bulletPass env.now (update_bullets (spawn_bullets env
        (update_chasers env st)))).1))).players = some q2 := by
    rw [(update_chaser_respawns_fields _ _).1, (spawn_powerups_fields _ _).1]
    exact hq2
  obtain ⟨q3, hq3, hs3, _⟩ := players_score_tick_score _ hmid
  refine ⟨q3, ?_, ?_⟩
  · rw [(global_score_tick_fields _).1]
    exact hq3
  · calc p.score ≤ q1.score := hs1 ▸ le_refl _
      _ ≤ q2.score := hs2
      _ ≤ q3.score := hs3

/-! ## Tick-level lemmas -/

theorem gameTick_game_state (env : Env) (st : ServerState) :
    (gameTick env st).game_state = st.game_state := by
  simp only [gameTick]
  split
  · rw [(update_game_state_fields _ _).1]
    exact (check_client_timeouts_fields _ _).1
  · exact (check_client_timeouts_fields _ _).1

theorem gameTick_global_le (env : Env) (st : ServerState) :
    st.global_score ≤ (gameTick env st).global_score := by
  simp only [gameTick]
  split
  · calc st.global_score
        = ({ check_client_timeouts env.now st with
              game_time := (check_client_timeouts env.now st).game_time + env.dt }).global_score := by
          show st.global_score = (check_client_timeouts env.now st).global_score
          exact ((check_client_timeouts_fields _ _).2.1).symm
      _ ≤ _ := update_game_state_global_le _ _
  · exact le_of_eq ((check_client_timeouts_fields _ _).2.1).symm

theorem gameTick_nonplaying (env : Env) (st : ServerState)
    (h : st.game_state ≠ GameState.PLAYING) :
    gameTick env st = check_client_timeouts env.now st := by
  simp only [gameTick]
  rw [if_neg]
  rw [(check_client_timeouts_fields _ _).1]
  exact h

theorem check_client_timeouts_players_get {now : ℚ} {st : ServerState} {pid : ℕ} {q : Player}
    (hnd : (st.players.map Prod.fst).Nodup)
    (h : alGet pid (check_client_timeouts now st).players = some q) :
    alGet pid st.players = some q :=
  foldDisconnect_players_get _ st hnd h

theorem check_client_timeouts_keys_nodup {now : ℚ} {st : ServerState}
    (hnd : (st.players.map Prod.fst).Nodup) :
    ((check_client_timeouts now st).players.map Prod.fst).Nodup := by
  show ((List.foldl (fun s cid => (disconnect_client cid s).1) st _).players.map Prod.fst).Nodup
  generalize (st.clients.filter fun kv =>
    kv.2.connected && decide (now - kv.2.last_heartbeat > timeout_threshold)).map Prod.fst = l
  induction l generalizing st with
  | nil => exact hnd
  | cons a rest ih =>
    rw [List.foldl_cons]
    exact ih (alErase_nodup hnd)

theorem gameTick_score (env : Env) (st : ServerState)
    {pid : ℕ} {p p' : Player}
    (hnd : (st.players.map Prod.fst).Nodup)
    (hp : alGet pid st.players = some p)
    (hp' : alGet pid (gameTick env st).players = some p') :
    p.score ≤ p'.score := by
  revert hp'
  simp only [gameTick]
  split
  · intro hp'
    set s1 : ServerState := { check_client_timeouts env.now st with
      game_time := (check_client_timeouts env.now st).game_time + env.dt } with hs1
    have hmem : pid ∈ s1.players.map Prod.fst := by
      have h1 : pid ∈ (update_game_state env s1).players.map Prod.fst :=
        alGet_mem_keys hp'
      rwa [update_game_state_keys] at h1
    have hq : ∃ q, alGet pid s1.players = some q := by
      cases hsome : alGet pid s1.players with
      | none =>
        have := alGet_isSome_of_mem_keys hmem
        rw [hsome] at this
        cases this
      | some q => exact ⟨q, rfl⟩
    obtain ⟨q, hq⟩ := hq
    have hq_st : alGet pid st.players = some q := by
      have : alGet pid (check_client_timeouts env.now st).players = some q := hq
      exact check_client_timeouts_players_get hnd this
    have hqp : q = p := alGet_eq_of_eq hq_st hp
    subst hqp
    obtain ⟨q', hq', hs'⟩ := update_game_state_score env s1 hq
    have : q' = p' := alGet_eq_of_eq hq' hp'
    subst this
    exact hs'
  · intro hp'
    have h1 : alGet pid st.players = some p' := check_client_timeouts_players_get hnd hp'
    rw [alGet_eq_of_eq hp h1]

/-! ## Message handler shapes -/

theorem alGet_map_values (pid : ℕ) (f : α → α) (l : List (ℕ × α)) :
    alGet pid (l.map fun kv => (kv.1, f kv.2)) = (alGet pid l).map f := by
  induction l with
  | nil => simp [alGet]
  | cons kv rest ih =>
    by_cases hk : kv.1 = pid
    · simp [alGet, hk]
    · simp [alGet, hk, ih]

theorem start_game_fields (env : Env) (st : ServerState) :
    (start_game env st).1.game_state = GameState.PLAYING
    ∧ (start_game env st).1.global_score = 0
    ∧ (start_game env st).1.last_global_score_time = 0
    ∧ (start_game env st).1.clients = st.clients :=
  ⟨rfl, rfl, rfl, rfl⟩

theorem start_game_players (env : Env) (st : ServerState) (pid : ℕ) :
    alGet pid (start_game env st).1.players = (alGet pid st.players).map resetPlayer :=
  alGet_map_values pid resetPlayer st.players

theorem accept_fields (now : ℚ) (st : ServerState) :
    (accept_connection now st).1.game_state = st.game_state
    ∧ (accept_connection now st).1.global_score = st.global_score
    ∧ (accept_connection now st).1.last_global_score_time = st.last_global_score_time
    ∧ (accept_connection now st).1.game_time = st.game_time := by
  unfold accept_connection
  split <;> exact ⟨rfl, rfl, rfl, rfl⟩

theorem accept_players (now : ℚ) (st : ServerState) (pid : ℕ) :
    (accept_connection now st).1.players = st.players
    ∨ (accept_connection now st).1.players
        = alSet (nextClientId (st.clients.map Prod.fst))
            (defaultPlayer (nextClientId (st.clients.map Prod.fst))) st.players := by
  unfold accept_connection
  split
  · exact Or.inl rfl
  · exact Or.inr rfl

theorem process_cases (env : Env) (cid : ℕ) (m : Json) (st : ServerState)
    {r : ServerState × List Event}
    (h : process_client_message env cid m st = Except.ok r) :
    (∃ fields, jgetStr m "type" = some "player_update" ∧ r.1 = mergeInto cid fields st)
    ∨ r.1 = setAttacking cid st
    ∨ r.1 = touchHeartbeat env.now cid st
    ∨ (st.game_state = GameState.MENU ∧ r.1 = (start_game env st).1)
    ∨ (∃ d, r.1 = { st with difficulty := d })
    ∨ r.1 = st := by
  cases m with
  | null => exact absurd h (by simp [process_client_message])
  | bool b => exact absurd h (by simp [process_client_message])
  | num q => exact absurd h (by simp [process_client_message])
  | str s => exact absurd h (by simp [process_client_message])
  | arr xs => exact absurd h (by simp [process_client_message])
  | obj kvs =>
    simp only [process_client_message] at h
    repeat' split at h
    all_goals cases h
    all_goals first
      | exact Or.inl ⟨_, by assumption, rfl⟩
      | exact Or.inr (Or.inl rfl)
      | exact Or.inr (Or.inr (Or.inl rfl))
      | exact Or.inr (Or.inr (Or.inr (Or.inl ⟨by assumption, rfl⟩)))
      | exact Or.inr (Or.inr (Or.inr (Or.inr (Or.inl ⟨_, rfl⟩))))
      | exact Or.inr (Or.inr (Or.inr (Or.inr (Or.inr rfl))))

theorem handleLine_cases (env : Env) (cid : ℕ) (l : RawLine) (st : ServerState) :
    handleLine env cid l st = st
    ∨ (∃ m r, l = RawLine.valid m ∧ process_client_message env cid m st = Except.ok r
        ∧ handleLine env cid l st = r.1)
    ∨ handleLine env cid l st = (disconnect_client cid st).1 := by
  cases l with
  | invalid s => exact Or.inl rfl
  | valid m =>
    cases hp : process_client_message env cid m st with
    | ok r => exact Or.inr (Or.inl ⟨m, r, rfl, hp, by simp [handleLine, hp]⟩)
    | error e => exact Or.inr (Or.inr (by simp [handleLine, hp]))

/-! ## Per-transition lemmas for the whole-server machine -/

theorem step_phase_mono (dsc : StepDesc) (s : ServerState)
    (h : s.game_state = GameState.PLAYING) :
    (applyStep dsc s).game_state = GameState.PLAYING := by
  cases dsc with
  | tick env =>
    show (gameTick env s).game_state = _
    rw [gameTick_game_state]
    exact h
  | line cid l env =>
    show (handleLine env cid l s).game_state = _
    rcases handleLine_cases env cid l s with he | ⟨m, r, hl, hp, he⟩ | he
    · rw [he]; exact h
    · rw [he]
      rcases process_cases env cid m s hp with ⟨f, _, hr⟩ | hr | hr | ⟨hmenu, hr⟩ | ⟨d, hr⟩ | hr
      · rw [hr]; exact h
      · rw [hr]; exact h
      · rw [hr]; exact h
      · rw [hr]; exact (start_game_fields env s).1
      · rw [hr]; exact h
      · rw [hr]; exact h
    · rw [he]; exact h
  | connect now =>
    show (accept_connection now s).1.game_state = _
    rw [(accept_fields now s).1]
    exact h
  | disconnect cid => exact h
  | autoStart env =>
    show (if s.game_state = GameState.MENU ∧ s.auto_started = false
        then (start_game env s).1 else s).game_state = _
    split
    · exact (start_game_fields env s).1
    · exact h

theorem step_global_frozen (dsc : StepDesc) (s : ServerState)
    (h : s.game_state ≠ GameState.PLAYING) :
    ((applyStep dsc s).global_score = s.global_score
      ∧ (applyStep dsc s).last_global_score_time = s.last_global_score_time)
    ∨ ((applyStep dsc s).global_score = 0
      ∧ (applyStep dsc s).last_global_score_time = 0) := by
  cases dsc with
  | tick env =>
    refine Or.inl ?_
    show ((gameTick env s).global_score = _ ∧ (gameTick env s).last_global_score_time = _)
    rw [gameTick_nonplaying env s h]
    exact ⟨(check_client_timeouts_fields _ _).2.1, (check_client_timeouts_fields _ _).2.2.1⟩
  | line cid l env =>
    show ((handleLine env cid l s).global_score = s.global_score
        ∧ (handleLine env cid l s).last_global_score_time = s.last_global_score_time)
      ∨ ((handleLine env cid l s).global_score = 0
        ∧ (handleLine env cid l s).last_global_score_time = 0)
    rcases handleLine_cases env cid l s with he | ⟨m, r, hl, hp, he⟩ | he
    · rw [he]; exact Or.inl ⟨rfl, rfl⟩
    · rw [he]
      rcases process_cases env cid m s hp with ⟨f, _, hr⟩ | hr | hr | ⟨hmenu, hr⟩ | ⟨d, hr⟩ | hr
      · rw [hr]; exact Or.inl ⟨rfl, rfl⟩
      · rw [hr]; exact Or.inl ⟨rfl, rfl⟩
      · rw [hr]; exact Or.inl ⟨rfl, rfl⟩
      · rw [hr]; exact Or.inr ⟨(start_game_fields env s).2.1, (start_game_fields env s).2.2.1⟩
      · rw [hr]; exact Or.inl ⟨rfl, rfl⟩
      · rw [hr]; exact Or.inl ⟨rfl, rfl⟩
    · rw [he]; exact Or.inl ⟨rfl, rfl⟩
  | connect now =>
    exact Or.inl ⟨(accept_fields now s).2.1, (accept_fields now s).2.2.1⟩
  | disconnect cid => exact Or.inl ⟨rfl, rfl⟩
  | autoStart env =>
    show (((if s.game_state = GameState.MENU ∧ s.auto_started = false
          then (start_game env s).1 else s).global_score = s.global_score)
        ∧ ((if s.game_state = GameState.MENU ∧ s.auto_started = false
          then (start_game env s).1 else s).last_global_score_time
            = s.last_global_score_time))
      ∨ (((if s.game_state = GameState.MENU ∧ s.auto_started = false
          then (start_game env s).1 else s).global_score = 0)
        ∧ ((if s.game_state = GameState.MENU ∧ s.auto_started = false
          then (start_game env s).1 else s).last_global_score_time = 0))
    split
    · exact Or.inr ⟨(start_game_fields env s).2.1, (start_game_fields env s).2.2.1⟩
    · exact Or.inl ⟨rfl, rfl⟩

theorem step_global_le_or_zero (dsc : StepDesc) (s : ServerState) :
    s.global_score ≤ (applyStep dsc s).global_score
    ∨ (applyStep dsc s).global_score = 0 := by
  cases dsc with
  | tick env => exact Or.inl (gameTick_global_le env s)
  | line cid l env =>
    show s.global_score ≤ (handleLine env cid l s).global_score
      ∨ (handleLine env cid l s).global_score = 0
    rcases handleLine_cases env cid l s with he | ⟨m, r, hl, hp, he⟩ | he
    · rw [he]; exact Or.inl (le_refl _)
    · rw [he]
      rcases process_cases env cid m s hp with ⟨f, _, hr⟩ | hr | hr | ⟨hmenu, hr⟩ | ⟨d, hr⟩ | hr
      · rw [hr]; exact Or.inl (le_refl _)
      · rw [hr]; exact Or.inl (le_refl _)
      · rw [hr]; exact Or.inl (le_refl _)
      · rw [hr]; exact Or.inr (start_game_fields env s).2.1
      · rw [hr]; exact Or.inl (le_refl _)
      · rw [hr]; exact Or.inl (le_refl _)
    · rw [he]; exact Or.inl (le_refl _)
  | connect now =>
    exact Or.inl (le_of_eq ((accept_fields now s).2.1).symm)
  | disconnect cid => exact Or.inl (le_refl _)
  | autoStart env =>
    show s.global_score ≤ (if s.game_state = GameState.MENU ∧ s.auto_started = false
        then (start_game env s).1 else s).global_score
      ∨ (if s.game_state = GameState.MENU ∧ s.auto_started = false
        then (start_game env s).1 else s).global_score = 0
    split
    · exact Or.inr (start_game_fields env s).2.1
    · exact Or.inl (le_refl _)

theorem step_score_ok (dsc : StepDesc) (s : ServerState)
    (hnd : (s.players.map Prod.fst).Nodup)
    (hnot : isPlayerUpdateStep dsc = false)
    {pid : ℕ} {p p' : Player}
    (hp : alGet pid s.players = some p)
    (hp' : alGet pid (applyStep dsc s).players = some p') :
    p.score ≤ p'.score ∨ p'.score = 0 := by
  cases dsc with
  | tick env => exact Or.inl (gameTick_score env s hnd hp hp')
  | line cid l env =>
    rcases handleLine_cases env cid l s with he | ⟨m, r, hl, hpr, he⟩ | he
    · have he' : alGet pid s.players = some p' := by
        have h0 : alGet pid (applyStep (StepDesc.line cid l env) s).players = some p' := hp'
        rw [show applyStep (StepDesc.line cid l env) s = handleLine env cid l s from rfl,
          he] at h0
        exact h0
      rw [alGet_eq_of_eq hp he']
      exact Or.inl (le_refl _)
    · have h0 : alGet pid r.1.players = some p' := by
        have h1 : alGet pid (applyStep (StepDesc.line cid l env) s).players = some p' := hp'
        rwa [show applyStep (StepDesc.line cid l env) s = handleLine env cid l s from rfl,
          he] at h1
      rcases process_cases env cid m s hpr with ⟨f, htyp, hr⟩ | hr | hr | ⟨hmenu, hr⟩
        | ⟨d, hr⟩ | hr
      · subst hl
        simp [isPlayerUpdateStep, htyp] at hnot
      · rw [hr] at h0
        have h1 : alGet pid (alModify cid
            (fun q => { q with sword_attacking := true }) s.players) = some p' := h0
        by_cases hpc : pid = cid
        · subst hpc
          rw [alGet_alModify_self, hp] at h1
          have : { p with sword_attacking := true } = p' := Option.some.inj h1
          rw [← this]
          exact Or.inl (le_refl _)
        · rw [alGet_alModify_ne hpc] at h1
          rw [alGet_eq_of_eq hp h1]
          exact Or.inl (le_refl _)
      · rw [hr] at h0
        have h1 : alGet pid s.players = some p' := h0
        rw [alGet_eq_of_eq hp h1]
        exact Or.inl (le_refl _)
      · rw [hr] at h0
        rw [start_game_players, hp] at h0
        have : resetPlayer p = p' := Option.some.inj h0
        rw [← this]
        exact Or.inr rfl
      · rw [hr] at h0
        have h1 : alGet pid s.players = some p' := h0
        rw [alGet_eq_of_eq hp h1]
        exact Or.inl (le_refl _)
      · rw [hr] at h0
        rw [alGet_eq_of_eq hp h0]
        exact Or.inl (le_refl _)
    · have h0 : alGet pid (disconnect_client cid s).1.players = some p' := by
        have h1 : alGet pid (applyStep (StepDesc.line cid l env) s).players = some p' := hp'
        rwa [show applyStep (StepDesc.line cid l env) s = handleLine env cid l s from rfl,
          he] at h1
      have h1 : alGet pid (alErase cid s.players) = some p' := h0
      have h2 := alGet_alErase_some hnd h1
      rw [alGet_eq_of_eq hp h2]
      exact Or.inl (le_refl _)
  | connect now =>
    have h0 : alGet pid (accept_connection now s).1.players = some p' := hp'
    rcases accept_players now s pid with hppl | hppl
    · rw [hppl] at h0
      rw [alGet_eq_of_eq hp h0]
      exact Or.inl (le_refl _)
    · rw [hppl] at h0
      by_cases hpc : pid = nextClientId (s.clients.map Prod.fst)
      · subst hpc
        rw [alGet_alSet_self] at h0
        have hdp := Option.some.inj h0
        rw [← hdp]
        exact Or.inr rfl
      · rw [alGet_alSet_ne hpc] at h0
        rw [alGet_eq_of_eq hp h0]
        exact Or.inl (le_refl _)
  | disconnect cid =>
    have h1 : alGet pid (alErase cid s.players) = some p' := hp'
    have h2 := alGet_alErase_some hnd h1
    rw [alGet_eq_of_eq hp h2]
    exact Or.inl (le_refl _)
  | autoStart env =>
    revert hp'
    show alGet pid (if s.game_state = GameState.MENU ∧ s.auto_started = false
        then (start_game env s).1 else s).players = some p' → _
    split
    · intro hp'
      rw [start_game_players, hp] at hp'
      have : resetPlayer p = p' := Option.some.inj hp'
      rw [← this]
      exact Or.inr rfl
    · intro hp'
      rw [alGet_eq_of_eq hp hp']
      exact Or.inl (le_refl _)

/-! ## Reachability invariant for the frozen scoreboard -/

theorem reachable_frozen_zero (s : ServerState) (hreach : Reachable s)
    (hnp : s.game_state ≠ GameState.PLAYING) :
    s.global_score = 0 ∧ s.last_global_score_time = 0 := by
  obtain ⟨mp, d, hsteps⟩ := hreach
  induction hsteps with
  | refl => exact ⟨rfl, rfl⟩
  | @tail b c hab hbc ih =>
    obtain ⟨dsc, hdsc⟩ := hbc
    have hb : b.game_state ≠ GameState.PLAYING := by
      intro hbp
      exact hnp (hdsc ▸ step_phase_mono dsc b hbp)
    have hb0 := ih hb
    rcases step_global_frozen dsc b hb with ⟨hg, hl⟩ | ⟨hg, hl⟩
    · rw [← hdsc]
      exact ⟨hg.trans hb0.1, hl.trans hb0.2⟩
    · rw [← hdsc]
      exact ⟨hg, hl⟩

/-- C5 counterexample: from a fresh server, client 1 connects, sends a
`player_update` with score 5, then a `player_update` with score 3.  The
last step is reachable, is not a game-start reset, and lowers the score
from 5 to 3, so the claimed monotonicity fails. -/
theorem C5_counterexample : ¬ ClaimC5 := by
  intro h
  have hreach : Reachable s5fix := by
    refine ⟨4, Difficulty.MEDIUM, ?_⟩
    have h1 : (fun a b => ∃ dsc, applyStep dsc a = b) (initialState 4 Difficulty.MEDIUM)
        stOne := ⟨StepDesc.connect 0, rfl⟩
    have h2 : (fun a b => ∃ dsc, applyStep dsc a = b) stOne s5fix :=
      ⟨StepDesc.line 1 (RawLine.valid (scoreMsg 5)) env0, rfl⟩
    exact Relation.ReflTransGen.tail (Relation.ReflTransGen.tail Relation.ReflTransGen.refl h1)
      h2
  have hstep : ∃ dsc, applyStep dsc s5fix = s3fix :=
    ⟨StepDesc.line 1 (RawLine.valid (scoreMsg 3)) env0, rfl⟩
  have h2 := (h s5fix s3fix hreach hstep).2 1 { defaultPlayer 1 with score := 5 }
    { defaultPlayer 1 with score := 3 } (by with_unfolding_all decide)
    (by with_unfolding_all decide)
  have h3 : (5 : ℚ) ≤ 3 ∨ (3 : ℚ) = 0 := h2
  rcases h3 with h4 | h4 <;> norm_num at h4

/-- C5 amended: across every transition the global score either does
not decrease or is reset to zero (the game-start reset); and for every
transition other than the processing of a `player_update` message, on a
state with well-formed (duplicate-free) player ids, every player record
present before and after has a non-decreased score unless the new score
is zero (game-start reset, or a fresh accept re-creating the player of
a reused id at score 0).  `player_update` overwrites the score with the
client-supplied value without validation, which is the exception the
counterexample exhibits. -/
theorem C5_score_monotonicity :
    (∀ dsc s, s.global_score ≤ (applyStep dsc s).global_score
      ∨ (applyStep dsc s).global_score = 0)
    ∧ (∀ dsc s, (s.players.map Prod.fst).Nodup → isPlayerUpdateStep dsc = false →
        ∀ pid p p', alGet pid s.players = some p →
          alGet pid (applyStep dsc s).players = some p' →
          p.score ≤ p'.score ∨ p'.score = 0) :=
  ⟨step_global_le_or_zero,
   fun dsc s hnd hnot pid p p' hp hp' => step_score_ok dsc s hnd hnot hp hp'⟩

/-- Closed witness for `C5_score_monotonicity`: the global part at a
connect step from `stOne`, and the per-player part at a disconnect step
from `stTwo` where player 1 survives with score 0. -/
theorem C5_score_monotonicity_witness :
    (stOne.global_score ≤ (applyStep (StepDesc.connect 0) stOne).global_score
      ∨ (applyStep (StepDesc.connect 0) stOne).global_score = 0)
    ∧ ((defaultPlayer 1).score ≤ (defaultPlayer 1).score
      ∨ (defaultPlayer 1).score = 0) :=
  ⟨C5_score_monotonicity.1 (StepDesc.connect 0) stOne,
   C5_score_monotonicity.2 (StepDesc.disconnect 2) stTwo (by decide) (by decide) 1
     (defaultPlayer 1) (defaultPlayer 1) (by decide) (by decide)⟩

/-- C6: while PLAYING, the periodic global accrual adds exactly 1 and
restamps the accrual clock whenever at least 10 game-time seconds have
elapsed since the last global increment, and otherwise changes nothing;
and from any reachable state whose phase is not PLAYING, no transition
changes the global score or the accrual clock. -/
theorem C6_global_score_accrual :
    (∀ st, (st.game_time - st.last_global_score_time ≥ global_score_interval →
        (global_score_tick st).global_score = st.global_score + 1
        ∧ (global_score_tick st).last_global_score_time = st.game_time)
      ∧ (¬(st.game_time - st.last_global_score_time ≥ global_score_interval) →
        global_score_tick st = st))
    ∧ (∀ s dsc, Reachable s → s.game_state ≠ GameState.PLAYING →
        (applyStep dsc s).global_score = s.global_score
        ∧ (applyStep dsc s).last_global_score_time = s.last_global_score_time) := by
  constructor
  · intro st
    constructor
    · intro h
      unfold global_score_tick
      rw [if_pos h]
      exact ⟨rfl, rfl⟩
    · intro h
      unfold global_score_tick
      rw [if_neg h]
  · intro s dsc hreach hnp
    rcases step_global_frozen dsc s hnp with ⟨hg, hl⟩ | ⟨hg, hl⟩
    · exact ⟨hg, hl⟩
    · obtain ⟨h0g, h0l⟩ := reachable_frozen_zero s hreach hnp
      exact ⟨hg.trans h0g.symm, hl.trans h0l.symm⟩

/-- Closed witness for `C6_global_score_accrual`: the accrual fires at
game time 11 with the clock at 0, and a disconnect transition from the
reachable MENU state `stOne` freezes the global scoreboard. -/
theorem C6_global_score_accrual_witness :
    ((global_score_tick { stOne with game_time := 11 }).global_score
        = { stOne with game_time := 11 }.global_score + 1
      ∧ (global_score_tick { stOne with game_time := 11 }).last_global_score_time
        = { stOne with game_time := 11 }.game_time)
    ∧ ((applyStep (StepDesc.disconnect 1) stOne).global_score = stOne.global_score
      ∧ (applyStep (StepDesc.disconnect 1) stOne).last_global_score_time
        = stOne.last_global_score_time) :=
  ⟨(C6_global_score_accrual.1 { stOne with game_time := 11 }).1
      (by with_unfolding_all decide),
   C6_global_score_accrual.2 stOne (StepDesc.disconnect 1)
     ⟨4, Difficulty.MEDIUM, Relation.ReflTransGen.tail Relation.ReflTransGen.refl
       ⟨StepDesc.connect 0, rfl⟩⟩
     (by decide)⟩

/-! ## Sword flag persistence (C10) -/

theorem swordFold_inv (pid : ℕ) (X Y : ℚ) (C : List Chaser)
    (hfar : ∀ c ∈ C, ¬ distSq X Y c.x c.y < 6400) :
    ∀ (ids : List ℕ) (s : ServerState),
      s.chasers ⊆ C →
      (∃ q, alGet pid s.players = some q ∧ q.x = X ∧ q.y = Y ∧ q.sword_attacking = true) →
      (ids.foldl swordStepOne s).chasers ⊆ C
      ∧ ∃ q', alGet pid (ids.foldl swordStepOne s).players = some q'
          ∧ q'.x = X ∧ q'.y = Y ∧ q'.sword_attacking = true := by
  intro ids
  induction ids with
  | nil => intro s hsub hq; exact ⟨hsub, hq⟩
  | cons i rest ih =>
    intro s hsub hq
    rw [List.foldl_cons]
    have hstep_sub : (swordStepOne s i).chasers ⊆ C := by
      rcases swordStepOne_shape s i with h | ⟨p0, c, hp0, hatk0, hfind0, h⟩ <;> rw [h]
      · exact hsub
      · exact fun x hx => hsub (List.erase_subset _ _ hx)
    obtain ⟨q, hget, hx, hy, hflag⟩ := hq
    have hstep_q : ∃ q', alGet pid (swordStepOne s i).players = some q'
        ∧ q'.x = X ∧ q'.y = Y ∧ q'.sword_attacking = true := by
      by_cases hip : i = pid
      · subst hip
        have hnone : s.chasers.find?
            (fun ch => decide (distSq q.x q.y ch.x ch.y < 6400)) = none := by
          rw [List.find?_eq_none]
          intro c hc
          simp only [decide_eq_true_eq]
          rw [hx, hy]
          exact hfar c (hsub hc)
        rw [swordStepOne_miss hget hflag hnone]
        exact ⟨q, hget, hx, hy, hflag⟩
      · rcases swordStepOne_shape s i with h | ⟨p0, c, hp0, hatk0, hfind0, h⟩ <;> rw [h]
        · exact ⟨q, hget, hx, hy, hflag⟩
        · refine ⟨q, ?_, hx, hy, hflag⟩
          simp only []
          rw [alGet_alModify_ne fun hh => hip hh.symm]
          exact hget
    exact ih (swordStepOne s i) hstep_sub hstep_q

theorem update_game_state_flag (env : Env) (st : ServerState) {pid : ℕ} {p : Player}
    (hp : alGet pid st.players = some p) (hflag : p.sword_attacking = true)
    (hfar : ∀ q, alGet pid (preSword env st).players = some q →
      ∀ c ∈ (preSword env st).chasers, ¬ distSq q.x q.y c.x c.y < 6400) :
    ∃ p', alGet pid (update_game_state env st).players = some p'
      ∧ p'.sword_attacking = true := by
  have hp3 : alGet pid (update_bullets (spawn_bullets env (update_chasers env st))).players
      = some p := by
    rw [(update_bullets_fields _).1, (spawn_bullets_fields _ _).1,
      (update_chasers_fields _ _).1]
    exact hp
  obtain ⟨q, hq0, _, hfl⟩ := bulletPass_score_flag env.now _ hp3
  have hq : alGet pid (preSword env st).players = some q := hq0
  have hflagq : q.sword_attacking = true := hfl.trans hflag
  obtain ⟨hsub', q', hq', hx', hy', hflag'⟩ :=
    swordFold_inv pid q.x q.y (preSword env st).chasers (hfar q hq)
      ((preSword env st).players.map Prod.fst) (preSword env st)
      (fun x hx => hx) ⟨q, hq, rfl, rfl, hflagq⟩
  have hq'' : alGet pid (swordPass (preSword env st)).players = some q' := hq'
  have hmid : alGet pid (update_chaser_respawns env (spawn_powerups env
      (swordPass (preSword env st)))).players = some q' := by
    rw [(update_chaser_respawns_fields _ _).1, (spawn_powerups_fields _ _).1]
    exact hq''
  obtain ⟨q2, hq2, _, hfl2⟩ := players_score_tick_score _ hmid
  refine ⟨q2, ?_, hfl2.trans hflag'⟩
  show alGet pid (global_score_tick (players_score_tick (update_chaser_respawns env
    (spawn_powerups env (swordPass (preSword env st)))))).players = some q2
  rw [(global_score_tick_fields _).1]
  exact hq2

/-- C10: the sword_attacking flag is set by the sword_attack action,
is only ever cleared by a sword-vs-chaser hit (the scan of the owner
clears it exactly when a chaser is within radius 80, and the scan of
any other player leaves it alone), and persists across arbitrarily many
simulation ticks as long as no chaser is within radius 80 of the player
when each tick's sword pass runs, so the pending attack resolves
against the first chaser that later comes into range. -/
theorem C10_sword_flag_persistence :
    (∀ env cid st p, alGet cid st.players = some p →
      process_client_message env cid swordAttackMsg st
          = Except.ok (setAttacking cid st, [Event.sword_attack_evt cid])
      ∧ ∃ p', alGet cid (setAttacking cid st).players = some p'
          ∧ p'.sword_attacking = true)
    ∧ (∀ st pid p p', alGet pid st.players = some p → p.sword_attacking = true →
        alGet pid (swordStepOne st pid).players = some p' → p'.sword_attacking = false →
        ∃ c ∈ st.chasers, distSq p.x p.y c.x c.y < 6400)
    ∧ (∀ st j pid, j ≠ pid →
        alGet pid (swordStepOne st j).players = alGet pid st.players)
    ∧ (∀ (envs : List Env) (st : ServerState) (pid : ℕ) (p : Player),
        alGet pid st.players = some p → p.sword_attacking = true →
        (∀ pre e suf, envs = pre ++ e :: suf →
          ∀ q, alGet pid (preSword e (pre.foldl (fun s ev => update_game_state ev s)
              st)).players = some q →
            ∀ c ∈ (preSword e (pre.foldl (fun s ev => update_game_state ev s) st)).chasers,
              ¬ distSq q.x q.y c.x c.y < 6400) →
        ∃ p', alGet pid (envs.foldl (fun s ev => update_game_state ev s) st).players
            = some p' ∧ p'.sword_attacking = true) := by
  refine ⟨?_, ?_, ?_, ?_⟩
  · intro env cid st p hp
    have hsome : (alGet cid st.players).isSome = true := by rw [hp]; rfl
    constructor
    · simp [process_client_message, jgetStr, jget, swordAttackMsg, hsome]
    · refine ⟨{ p with sword_attacking := true }, ?_, rfl⟩
      show alGet cid (alModify cid (fun q => { q with sword_attacking := true })
        st.players) = _
      rw [alGet_alModify_self, hp]
      rfl
  · intro st pid p p' hp hflag hp' hflag'
    rcases swordStepOne_shape st pid with h | ⟨p0, c, hp0, hatk0, hfind0, h⟩
    · rw [h] at hp'
      have : p = p' := alGet_eq_of_eq hp hp'
      rw [this, hflag'] at hflag
      cases hflag
    · have hpp0 : p = p0 := alGet_eq_of_eq hp hp0
      have hmem : c ∈ st.chasers := List.mem_of_find?_eq_some hfind0
      have hpred := List.find?_some hfind0
      refine ⟨c, hmem, ?_⟩
      rw [hpp0]
      exact of_decide_eq_true hpred
  · intro st j pid hj
    rcases swordStepOne_shape st j with h | ⟨p0, c, hp0, hatk0, hfind0, h⟩ <;> rw [h]
    simp only []
    rw [alGet_alModify_ne fun hh => hj hh.symm]
  · intro envs
    induction envs with
    | nil =>
      intro st pid p hp hflag _
      exact ⟨p, hp, hflag⟩
    | cons e rest ih =>
      intro st pid p hp hflag hfar
      obtain ⟨p1, hp1, hflag1⟩ := update_game_state_flag e st hp hflag
        (hfar [] e rest rfl)
      rw [List.foldl_cons]
      exact ih (update_game_state e st) pid p1 hp1 hflag1
        (fun pre e' suf heq => hfar (e :: pre) e' suf (by rw [heq]; rfl))

/-- Closed witness for `C10_sword_flag_persistence`: the attack message
sets the flag of player 1 in `stOne`, and one full tick of the
chaser-free PLAYING state `stSword` leaves the flag set. -/
theorem C10_sword_flag_persistence_witness :
    process_client_message env0 1 swordAttackMsg stOne
        = Except.ok (setAttacking 1 stOne, [Event.sword_attack_evt 1])
    ∧ (alGet 1 ([env0].foldl (fun s ev => update_game_state ev s) stSword).players).map
        Player.sword_attacking = some true := by
  constructor
  · exact (C10_sword_flag_persistence.1 env0 1 stOne (defaultPlayer 1) (by decide)).1
  · have hfar : ∀ pre e suf, ([env0] : List Env) = pre ++ e :: suf →
        ∀ q, alGet 1 (preSword e (pre.foldl (fun s ev => update_game_state ev s)
            stSword)).players = some q →
          ∀ c ∈ (preSword e (pre.foldl (fun s ev => update_game_state ev s)
              stSword)).chasers, ¬ distSq q.x q.y c.x c.y < 6400 := by
      intro pre e suf heq q hq c hc
      cases pre with
      | nil =>
        simp only [List.nil_append] at heq
        injection heq with h1 h2
        subst h1
        subst h2
        rw [show (preSword env0 (List.foldl (fun s ev => update_game_state ev s)
            stSword [])).chasers = [] from by with_unfolding_all decide] at hc
        cases hc
      | cons a as =>
        exfalso
        have hlen := congrArg List.length heq
        simp [List.length_append] at hlen
    obtain ⟨p', hp', hflag'⟩ := C10_sword_flag_persistence.2.2.2 [env0] stSword 1 paF
      (by decide) (by decide) hfar
    rw [hp']
    simp [hflag']
